import Mathlib

set_option maxHeartbeats 1000000

/-!
# MCP-Logger: verification of the data-access and query layer

This file gives a shallow embedding, in Lean 4, of the data-access layer of
the MCP-Logger repository (`src/db.py`, `src/main.py`) and settles the frozen
claims about it.

Modelling conventions:
* SQLite tables are lists of row structures; the per-table `AUTOINCREMENT`
  counter is carried explicitly in the `Store` structure.
* Python's `sqlite3` connection discipline is made explicit: each write
  operation returns the durable store (what later connections observe), a
  flag telling whether the connection was opened, a flag telling whether
  `conn.close()` was reached, and the outcome (`Except` models raised
  exceptions).  `conn.commit()` publishes the connection's working state to
  the durable store; an exception raised before `commit` leaves the durable
  store untouched, because each operation uses a fresh connection whose
  uncommitted writes are discarded.
* Numeric REAL columns carry values that the repository only ever passes
  through (no arithmetic is performed on them by any claim under study), so
  they are modelled with `Int` carriers.
* `json.dumps` / `json.loads` (the only stdlib functions with behaviour the
  claims depend on) are embedded as an encoder for string lists with
  `ensure_ascii=True` escaping and a fuel-indexed recursive-descent parser of
  the JSON grammar accepted by Python's scanner (strings with all escape
  forms including surrogate pairs, arrays, objects, numbers, `null`, `true`,
  `false`, `NaN`, `Infinity`, `-Infinity`, with JSON whitespace and the
  whole-input check of `json.loads`).  Known modelling limits, none of which
  any theorem below touches: lone-surrogate `\uXXXX` escapes (unrepresentable
  in Lean `Char`) are treated as decode errors, and fuel exhaustion (which
  mirrors Python's recursion limit on absurdly nested input) is folded into
  decode failure.
-/

namespace MCPLogger

/-- A dynamic (Python-style) JSON value, the possible results of
`json.loads`.  Numbers are kept as their source token text since no claim
performs numeric computation on them. -/
inductive JsonValue where
  | jnull
  | jbool (b : Bool)
  | jnum (raw : String)
  | jstr (s : String)
  | jarr (items : List JsonValue)
  | jobj (fields : List (String × JsonValue))
deriving Repr

/-- The opening-brace character, `Char.ofNat 123`. -/
def lbraceChar : Char := Char.ofNat 123

/-- The closing-brace character, `Char.ofNat 125`. -/
def rbraceChar : Char := Char.ofNat 125

/-- Lower-case hexadecimal digit, as produced by Python's
`'\\u{0:04x}'.format`. -/
def hexDigitChar (n : Nat) : Char :=
  if n < 10 then Char.ofNat (48 + n) else Char.ofNat (87 + n)

/-- Four lower-case hex digits (most significant first). -/
def hex4 (n : Nat) : List Char :=
  [hexDigitChar (n / 4096 % 16), hexDigitChar (n / 256 % 16),
   hexDigitChar (n / 16 % 16), hexDigitChar (n % 16)]

/-- `json.dumps` escaping of one character with `ensure_ascii=True`
(CPython `py_encode_basestring_ascii`): short escapes for `\\`, `"`,
backspace, form feed, newline, carriage return and tab; `\uXXXX` for other
control characters and all non-ASCII code points, using a surrogate pair
above U+FFFF. -/
def encChar (c : Char) : List Char :=
  if c = '\\' then ['\\', '\\']
  else if c = '"' then ['\\', '"']
  else if c = '\x08' then ['\\', 'b']
  else if c = '\x0c' then ['\\', 'f']
  else if c = '\n' then ['\\', 'n']
  else if c = '\r' then ['\\', 'r']
  else if c = '\t' then ['\\', 't']
  else if c.toNat < 0x20 then '\\' :: 'u' :: hex4 c.toNat
  else if c.toNat ≤ 0x7e then [c]
  else if c.toNat < 0x10000 then '\\' :: 'u' :: hex4 c.toNat
  else
    ('\\' :: 'u' :: hex4 (0xd800 + (c.toNat - 0x10000) / 1024)) ++
    ('\\' :: 'u' :: hex4 (0xdc00 + (c.toNat - 0x10000) % 1024))

/-- `json.dumps` escaping of a whole character sequence. -/
def encStr : List Char → List Char
  | [] => []
  | c :: cs => encChar c ++ encStr cs

/-- The characters after the first encoded item of a dumped string list:
`", "` then the next quoted item, repeatedly (Python's default item
separator is `", "`). -/
def encMoreItems : List String → List Char
  | [] => []
  | s :: rest => ',' :: ' ' :: '"' :: (encStr s.data ++ '"' :: encMoreItems rest)

/-- The characters between the brackets of a dumped string list. -/
def encItems : List String → List Char
  | [] => []
  | s :: rest => '"' :: (encStr s.data ++ '"' :: encMoreItems rest)

/-- `json.dumps(tags)` for a list of strings (default separators and
`ensure_ascii=True`). -/
def jsonDumpsStrList (tags : List String) : String :=
  String.mk ('[' :: (encItems tags ++ [']']))

/-- `db.serialize_tags`: `None` maps to `None`, a list maps to its JSON
dump. -/
def serialize_tags (tags : Option (List String)) : Option String :=
  tags.map jsonDumpsStrList

/-- JSON whitespace as skipped by Python's scanner: space, tab, newline,
carriage return. -/
def isJsonWs (c : Char) : Bool :=
  c = ' ' || c = '\t' || c = '\n' || c = '\r'

/-- Drop leading JSON whitespace. -/
def skipWs : List Char → List Char
  | [] => []
  | c :: cs => if isJsonWs c then skipWs cs else c :: cs

/-- Value of one hexadecimal digit (both cases), as accepted by `\uXXXX`
escapes. -/
def hexVal (c : Char) : Option Nat :=
  if '0' ≤ c ∧ c ≤ '9' then some (c.toNat - 48)
  else if 'a' ≤ c ∧ c ≤ 'f' then some (c.toNat - 87)
  else if 'A' ≤ c ∧ c ≤ 'F' then some (c.toNat - 55)
  else none

/-- Read exactly four hex digits. -/
def parseHex4 : List Char → Option (Nat × List Char)
  | a :: b :: c :: d :: rest =>
    match hexVal a, hexVal b, hexVal c, hexVal d with
    | some x, some y, some z, some w => some (4096 * x + 256 * y + 16 * z + w, rest)
    | _, _, _, _ => none
  | _ => none

/-- Decode one escape sequence (the characters after a backslash), as in
CPython's `py_scanstring`: the short escapes, and `\uXXXX` with surrogate
pair combination.  Lone surrogates are rejected (see the module comment). -/
def parseEscape : List Char → Option (Char × List Char)
  | [] => none
  | c :: rest =>
    if c = '"' then some ('"', rest)
    else if c = '\\' then some ('\\', rest)
    else if c = '/' then some ('/', rest)
    else if c = 'b' then some ('\x08', rest)
    else if c = 'f' then some ('\x0c', rest)
    else if c = 'n' then some ('\n', rest)
    else if c = 'r' then some ('\r', rest)
    else if c = 't' then some ('\t', rest)
    else if c = 'u' then
      match parseHex4 rest with
      | none => none
      | some (n, rest2) =>
        if 0xd800 ≤ n ∧ n ≤ 0xdbff then
          match rest2 with
          | '\\' :: 'u' :: rest3 =>
            match parseHex4 rest3 with
            | some (m, rest4) =>
              if 0xdc00 ≤ m ∧ m ≤ 0xdfff then
                some (Char.ofNat (0x10000 + (n - 0xd800) * 1024 + (m - 0xdc00)), rest4)
              else none
            | none => none
          | _ => none
        else if 0xdc00 ≤ n ∧ n ≤ 0xdfff then none
        else some (Char.ofNat n, rest2)
    else none

/-- Decode a JSON string body (the characters after the opening quote) up to
the closing quote, `strict=True`: raw control characters are rejected.  The
fuel argument strictly exceeds the number of decoded characters whenever the
caller passes in the remaining input length plus one. -/
def parseStringBody : Nat → List Char → Option (List Char × List Char)
  | 0, _ => none
  | _ + 1, [] => none
  | fuel + 1, c :: rest =>
    if c = '"' then some ([], rest)
    else if c = '\\' then
      match parseEscape rest with
      | none => none
      | some (ch, rest2) =>
        match parseStringBody fuel rest2 with
        | none => none
        | some (s, r) => some (ch :: s, r)
    else if c.toNat < 0x20 then none
    else
      match parseStringBody fuel rest with
      | none => none
      | some (s, r) => some (c :: s, r)

/-- ASCII decimal digit test. -/
def isDigitChar (c : Char) : Bool := '0' ≤ c && c ≤ '9'

/-- Longest leading run of decimal digits. -/
def takeDigits : List Char → List Char × List Char
  | [] => ([], [])
  | c :: cs =>
    if isDigitChar c then
      match takeDigits cs with
      | (d, r) => (c :: d, r)
    else ([], c :: cs)

/-- Integer part of a JSON number: `0` or a nonzero digit followed by
digits (`0|[1-9]\d*`). -/
def parseIntPart : List Char → Option (List Char × List Char)
  | [] => none
  | c :: cs =>
    if c = '0' then some (['0'], cs)
    else if isDigitChar c then
      match takeDigits cs with
      | (d, r) => some (c :: d, r)
    else none

/-- Optional fraction part `(\.\d+)?`; consumes nothing when absent. -/
def parseFracPart : List Char → List Char × List Char
  | [] => ([], [])
  | c :: cs =>
    if c = '.' then
      match takeDigits cs with
      | ([], _) => ([], c :: cs)
      | (d, r) => (c :: d, r)
    else ([], c :: cs)

/-- Optional exponent part `([eE][-+]?\d+)?`; consumes nothing when
absent. -/
def parseExpPart : List Char → List Char × List Char
  | [] => ([], [])
  | c :: cs =>
    if c = 'e' ∨ c = 'E' then
      match cs with
      | [] => ([], [c])
      | s :: cs2 =>
        if s = '+' ∨ s = '-' then
          match takeDigits cs2 with
          | ([], _) => ([], c :: cs)
          | (d, r) => (c :: s :: d, r)
        else
          match takeDigits cs with
          | ([], _) => ([], c :: cs)
          | (d, r) => (c :: d, r)
    else ([], c :: cs)

/-- Scan a JSON number token (CPython's `NUMBER_RE`), returning its source
text. -/
def parseNumber (cs : List Char) : Option (String × List Char) :=
  match cs with
  | '-' :: cs1 =>
    match parseIntPart cs1 with
    | none => none
    | some (ip, cs2) =>
      match parseFracPart cs2 with
      | (fp, cs3) =>
        match parseExpPart cs3 with
        | (ep, cs4) => some (String.mk ('-' :: (ip ++ fp ++ ep)), cs4)
  | _ =>
    match parseIntPart cs with
    | none => none
    | some (ip, cs2) =>
      match parseFracPart cs2 with
      | (fp, cs3) =>
        match parseExpPart cs3 with
        | (ep, cs4) => some (String.mk (ip ++ fp ++ ep), cs4)

/-- Match a literal character sequence, returning the rest of the input. -/
def matchLit : List Char → List Char → Option (List Char)
  | [], cs => some cs
  | _ :: _, [] => none
  | p :: ps, c :: cs => if c = p then matchLit ps cs else none

mutual

/-- One JSON value (CPython `_scan_once`): string, array, object, `null`,
`true`, `false`, number, `NaN`, `Infinity`, `-Infinity`.  The caller has
already skipped leading whitespace.  Fuel bounds the recursion depth and the
number of aggregate elements; `jsonLoads` supplies more than enough. -/
def parseValue : Nat → List Char → Option (JsonValue × List Char)
  | 0, _ => none
  | _ + 1, [] => none
  | fuel + 1, c :: rest =>
    if c = '"' then
      match parseStringBody (rest.length + 1) rest with
      | none => none
      | some (s, r) => some (.jstr (String.mk s), r)
    else if c = '[' then parseArrayBody fuel (skipWs rest)
    else if c = lbraceChar then parseObjectBody fuel (skipWs rest)
    else
      match matchLit ['n', 'u', 'l', 'l'] (c :: rest) with
      | some r => some (.jnull, r)
      | none =>
      match matchLit ['t', 'r', 'u', 'e'] (c :: rest) with
      | some r => some (.jbool true, r)
      | none =>
      match matchLit ['f', 'a', 'l', 's', 'e'] (c :: rest) with
      | some r => some (.jbool false, r)
      | none =>
      match parseNumber (c :: rest) with
      | some (s, r) => some (.jnum s, r)
      | none =>
      match matchLit ['N', 'a', 'N'] (c :: rest) with
      | some r => some (.jnum "NaN", r)
      | none =>
      match matchLit ['I', 'n', 'f', 'i', 'n', 'i', 't', 'y'] (c :: rest) with
      | some r => some (.jnum "Infinity", r)
      | none =>
      match matchLit ['-', 'I', 'n', 'f', 'i', 'n', 'i', 't', 'y'] (c :: rest) with
      | some r => some (.jnum "-Infinity", r)
      | none => none

/-- Array contents after `[` and leading whitespace. -/
def parseArrayBody : Nat → List Char → Option (JsonValue × List Char)
  | 0, _ => none
  | _ + 1, [] => none
  | fuel + 1, c :: rest =>
    if c = ']' then some (.jarr [], rest)
    else
      match parseValue fuel (c :: rest) with
      | none => none
      | some (v, r) => parseArrayTail fuel [v] (skipWs r)

/-- Array continuation: expecting `]` or `,` followed by the next element
(whitespace already skipped); elements are accumulated in reverse. -/
def parseArrayTail : Nat → List JsonValue → List Char → Option (JsonValue × List Char)
  | 0, _, _ => none
  | _ + 1, _, [] => none
  | fuel + 1, acc, c :: rest =>
    if c = ']' then some (.jarr acc.reverse, rest)
    else if c = ',' then
      match parseValue fuel (skipWs rest) with
      | none => none
      | some (v, r) => parseArrayTail fuel (v :: acc) (skipWs r)
    else none

/-- Object contents after the opening brace and leading whitespace. -/
def parseObjectBody : Nat → List Char → Option (JsonValue × List Char)
  | 0, _ => none
  | _ + 1, [] => none
  | fuel + 1, c :: rest =>
    if c = rbraceChar then some (.jobj [], rest)
    else if c = '"' then
      match parseStringBody (rest.length + 1) rest with
      | none => none
      | some (k, r) =>
        match skipWs r with
        | ':' :: r2 =>
          match parseValue fuel (skipWs r2) with
          | none => none
          | some (v, r3) => parseObjectTail fuel [(String.mk k, v)] (skipWs r3)
        | _ => none
    else none

/-- Object continuation: expecting the closing brace or `,` then the next
`"key": value` pair (whitespace already skipped). -/
def parseObjectTail : Nat → List (String × JsonValue) → List Char →
    Option (JsonValue × List Char)
  | 0, _, _ => none
  | _ + 1, _, [] => none
  | fuel + 1, acc, c :: rest =>
    if c = rbraceChar then some (.jobj acc.reverse, rest)
    else if c = ',' then
      match skipWs rest with
      | '"' :: r =>
        match parseStringBody (r.length + 1) r with
        | none => none
        | some (k, r1) =>
          match skipWs r1 with
          | ':' :: r2 =>
            match parseValue fuel (skipWs r2) with
            | none => none
            | some (v, r3) => parseObjectTail fuel ((String.mk k, v) :: acc) (skipWs r3)
          | _ => none
      | _ => none
    else none

end

/-- `json.loads`: skip whitespace, scan one value, require only whitespace
afterwards (CPython raises `Extra data` otherwise).  `none` models a raised
`json.JSONDecodeError`. -/
def jsonLoads (s : String) : Option JsonValue :=
  match parseValue (2 * s.data.length + 2) (skipWs s.data) with
  | none => none
  | some (v, r) => if skipWs r = [] then some v else none

/-- `db.deserialize_tags`: falsy input (`None` or the empty string) yields
the empty list; otherwise the `json.loads` result is returned as is, with
`json.JSONDecodeError` caught and turned into the empty list. -/
def deserialize_tags (text : Option String) : JsonValue :=
  match text with
  | none => .jarr []
  | some s =>
    if s.data.isEmpty then .jarr []
    else
      match jsonLoads s with
      | some v => v
      | none => .jarr []

/-! ## Dates: `_ensure_date` (strptime) and `_ensure_iso_date` (fromisoformat) -/

/-- Errors raised by the operations under study: `ValueError`, `TypeError`
and `sqlite3.IntegrityError`. -/
inductive PyErr where
  | valueError (msg : String)
  | typeError (msg : String)
  | integrityError (msg : String)
deriving Repr, DecidableEq

/-- Decimal digits of `n`, zero-padded on the left to the given width. -/
def padNum (width n : Nat) : List Char :=
  let ds := Nat.toDigits 10 n
  List.replicate (width - ds.length) '0' ++ ds

/-- Gregorian leap-year rule, as used by Python `datetime`. -/
def isLeapYear (y : Nat) : Bool :=
  y % 4 = 0 && (y % 100 ≠ 0 || y % 400 = 0)

/-- Days in a month, as validated by the Python `datetime` constructor. -/
def daysInMonth (y m : Nat) : Nat :=
  if m = 2 then (if isLeapYear y then 29 else 28)
  else if m = 4 ∨ m = 6 ∨ m = 9 ∨ m = 11 then 30
  else 31

/-- Exactly four decimal digits (CPython `_strptime` regex for `%Y`). -/
def parse4Digits : List Char → Option (Nat × List Char)
  | a :: b :: c :: d :: rest =>
    if isDigitChar a ∧ isDigitChar b ∧ isDigitChar c ∧ isDigitChar d then
      some ((a.toNat - 48) * 1000 + (b.toNat - 48) * 100 +
        (c.toNat - 48) * 10 + (d.toNat - 48), rest)
    else none
  | _ => none

/-- Exactly two decimal digits. -/
def parse2Digits : List Char → Option (Nat × List Char)
  | a :: b :: rest =>
    if isDigitChar a ∧ isDigitChar b then
      some ((a.toNat - 48) * 10 + (b.toNat - 48), rest)
    else none
  | _ => none

/-- Candidates for `%m` in regex-alternative order: `1[0-2]|0[1-9]|[1-9]`. -/
def parseMonthField (cs : List Char) : List (Nat × List Char) :=
  (match cs with
   | a :: b :: rest =>
     (if a = '1' ∧ '0' ≤ b ∧ b ≤ '2' then [(10 + (b.toNat - 48), rest)] else []) ++
     (if a = '0' ∧ '1' ≤ b ∧ b ≤ '9' then [(b.toNat - 48, rest)] else [])
   | _ => []) ++
  (match cs with
   | a :: rest => if '1' ≤ a ∧ a ≤ '9' then [(a.toNat - 48, rest)] else []
   | [] => [])

/-- Candidates for `%d` in regex-alternative order:
`3[01]|[12]\d|0[1-9]|[1-9]`. -/
def parseDayField (cs : List Char) : List (Nat × List Char) :=
  (match cs with
   | a :: b :: rest =>
     (if a = '3' ∧ '0' ≤ b ∧ b ≤ '1' then [(30 + (b.toNat - 48), rest)] else []) ++
     (if ('1' ≤ a ∧ a ≤ '2') ∧ isDigitChar b then
       [((a.toNat - 48) * 10 + (b.toNat - 48), rest)] else []) ++
     (if a = '0' ∧ '1' ≤ b ∧ b ≤ '9' then [(b.toNat - 48, rest)] else [])
   | _ => []) ++
  (match cs with
   | a :: rest => if '1' ≤ a ∧ a ≤ '9' then [(a.toNat - 48, rest)] else []
   | [] => [])

/-- Candidates for `%H` in regex-alternative order: `2[0-3]|[0-1]\d|\d`. -/
def parseHourField (cs : List Char) : List (Nat × List Char) :=
  (match cs with
   | a :: b :: rest =>
     (if a = '2' ∧ '0' ≤ b ∧ b ≤ '3' then [(20 + (b.toNat - 48), rest)] else []) ++
     (if ('0' ≤ a ∧ a ≤ '1') ∧ isDigitChar b then
       [((a.toNat - 48) * 10 + (b.toNat - 48), rest)] else [])
   | _ => []) ++
  (match cs with
   | a :: rest => if isDigitChar a then [(a.toNat - 48, rest)] else []
   | [] => [])

/-- Candidates for `%M` and `%S` in regex-alternative order: `[0-5]\d|\d`. -/
def parseMinSecField (cs : List Char) : List (Nat × List Char) :=
  (match cs with
   | a :: b :: rest =>
     if ('0' ≤ a ∧ a ≤ '5') ∧ isDigitChar b then
       [((a.toNat - 48) * 10 + (b.toNat - 48), rest)]
     else []
   | _ => []) ++
  (match cs with
   | a :: rest => if isDigitChar a then [(a.toNat - 48, rest)] else []
   | [] => [])

/-- `strptime(value, "%Y-%m-%d")` pattern match over the whole string, with
regex-order backtracking over the field alternatives. -/
def strptimeYMD (cs : List Char) : Option (Nat × Nat × Nat) :=
  match parse4Digits cs with
  | some (y, '-' :: r1) =>
    (parseMonthField r1).findSome? fun (m, r2) =>
      match r2 with
      | '-' :: r3 =>
        (parseDayField r3).findSome? fun (d, r4) =>
          if r4 = [] then some (y, m, d) else none
      | _ => none
  | _ => none

/-- `strptime(value, "%Y-%m-%dT%H:%M:%S")` over the whole string. -/
def strptimeYMDHMS (cs : List Char) : Option (Nat × Nat × Nat) :=
  match parse4Digits cs with
  | some (y, '-' :: r1) =>
    (parseMonthField r1).findSome? fun (m, r2) =>
      match r2 with
      | '-' :: r3 =>
        (parseDayField r3).findSome? fun (d, r4) =>
          match r4 with
          | 'T' :: r5 =>
            (parseHourField r5).findSome? fun (_, r6) =>
              match r6 with
              | ':' :: r7 =>
                (parseMinSecField r7).findSome? fun (_, r8) =>
                  match r8 with
                  | ':' :: r9 =>
                    (parseMinSecField r9).findSome? fun (_, r10) =>
                      if r10 = [] then some (y, m, d) else none
                  | _ => none
              | _ => none
          | _ => none
      | _ => none
  | _ => none

/-- `main._ensure_date`: try `%Y-%m-%d` then `%Y-%m-%dT%H:%M:%S`, return the
date part in ISO form, raise `ValueError` otherwise.  A string whose digits
match a format but denote an invalid calendar date (e.g. day out of range
for the month, or year zero) makes Python's datetime constructor raise,
and the other format cannot match the same string, so the call fails
overall; the model checks those bounds in place. -/
def ensure_date (value : String) : Except PyErr String :=
  match strptimeYMD value.data with
  | some (y, m, d) =>
    if 1 ≤ y ∧ 1 ≤ d ∧ d ≤ daysInMonth y m then
      .ok (String.mk (padNum 4 y ++ '-' :: padNum 2 m ++ '-' :: padNum 2 d))
    else .error (.valueError ("Invalid date string: " ++ value))
  | none =>
    match strptimeYMDHMS value.data with
    | some (y, m, d) =>
      if 1 ≤ y ∧ 1 ≤ d ∧ d ≤ daysInMonth y m then
        .ok (String.mk (padNum 4 y ++ '-' :: padNum 2 m ++ '-' :: padNum 2 d))
      else .error (.valueError ("Invalid date string: " ++ value))
    | none => .error (.valueError ("Invalid date string: " ++ value))

/-- Numeric value of a digit run. -/
def digitsVal (ds : List Char) : Nat :=
  ds.foldl (fun acc c => acc * 10 + (c.toNat - 48)) 0

/-- Time-of-day part of `datetime.fromisoformat`:
`HH[:MM[:SS[.ffffff]]]`, two-digit fields, fraction of one to six digits
introduced by `.` or `,`.  Returns hour, minute, second, microsecond. -/
def fromIsoTime (cs : List Char) : Option (Nat × Nat × Nat × Nat) :=
  match parse2Digits cs with
  | none => none
  | some (hh, rest) =>
    if 24 ≤ hh then none
    else
      match rest with
      | [] => some (hh, 0, 0, 0)
      | ':' :: rest2 =>
        match parse2Digits rest2 with
        | none => none
        | some (mi, rest3) =>
          if 60 ≤ mi then none
          else
            match rest3 with
            | [] => some (hh, mi, 0, 0)
            | ':' :: rest4 =>
              match parse2Digits rest4 with
              | none => none
              | some (ss, rest5) =>
                if 60 ≤ ss then none
                else
                  match rest5 with
                  | [] => some (hh, mi, ss, 0)
                  | sep :: rest6 =>
                    if sep = '.' ∨ sep = ',' then
                      match takeDigits rest6 with
                      | (ds, []) =>
                        if 1 ≤ ds.length ∧ ds.length ≤ 6 then
                          some (hh, mi, ss, digitsVal ds * 10 ^ (6 - ds.length))
                        else none
                      | _ => none
                    else none
            | _ => none
      | _ => none

/-- `datetime.fromisoformat` over the grammar the repository relies on:
`YYYY-MM-DD`, optionally followed by any single separator character and a
time of day.  Timezone suffixes and the compact all-digit ISO forms of
Python 3.11+ are outside the modelled grammar; no claim under study
involves them. -/
def fromIso (cs : List Char) : Option (Nat × Nat × Nat × Nat × Nat × Nat × Nat) :=
  match parse4Digits cs with
  | some (y, '-' :: rest) =>
    match parse2Digits rest with
    | some (m, '-' :: rest2) =>
      match parse2Digits rest2 with
      | some (d, rest3) =>
        if 1 ≤ y ∧ 1 ≤ m ∧ m ≤ 12 ∧ 1 ≤ d ∧ d ≤ daysInMonth y m then
          match rest3 with
          | [] => some (y, m, d, 0, 0, 0, 0)
          | _ :: timecs =>
            match fromIsoTime timecs with
            | some (hh, mi, ss, micro) => some (y, m, d, hh, mi, ss, micro)
            | none => none
        else none
      | _ => none
    | _ => none
  | _ => none

/-- `datetime.isoformat()`: `YYYY-MM-DDTHH:MM:SS`, with `.ffffff` appended
exactly when the microsecond field is nonzero. -/
def isoformatDT (y m d hh mi ss micro : Nat) : String :=
  String.mk (padNum 4 y ++ '-' :: padNum 2 m ++ '-' :: padNum 2 d ++
    'T' :: padNum 2 hh ++ ':' :: padNum 2 mi ++ ':' :: padNum 2 ss ++
    (if micro = 0 then [] else '.' :: padNum 6 micro))

/-- `main._ensure_iso_date`: `datetime.fromisoformat(value).isoformat()`,
raising `ValueError` on parse failure. -/
def ensure_iso_date (value : String) : Except PyErr String :=
  match fromIso value.data with
  | some (y, m, d, hh, mi, ss, micro) => .ok (isoformatDT y m d hh mi ss micro)
  | none => .error (.valueError ("Invalid ISO datetime: " ++ value))

/-! ## The relational store

Tables are lists of rows in insertion order, with the per-table
`AUTOINCREMENT` counters carried explicitly (SQLite assigns
`max-so-far + 1` and never reuses ids; `lastrowid` is the id just
assigned).  The `meals` and `meal_items` tables are omitted: no claim under
study touches them.  Numeric REAL columns carry `Int` values: the
operations under study only pass these values through, so any scalar
carrier is faithful. -/

structure WorkoutRow where
  id : Nat
  date_time : String
  workout_type : Option String
  tags : Option String
  notes : Option String
deriving Repr, DecidableEq

structure ExerciseRow where
  id : Nat
  workout_id : Nat
  order_index : Int
  name : String
  category : Option String
  notes : Option String
deriving Repr, DecidableEq

structure SetRow where
  id : Nat
  exercise_id : Nat
  set_index : Int
  reps : Option Int
  weight_kg : Option Int
  weight_lbs : Option Int
  distance_m : Option Int
  distance_yards : Option Int
  duration_s : Option Int
  side : Option String
  rpe : Option Int
  rir : Option Int
  is_warmup : Int
deriving Repr, DecidableEq

structure NutritionDayRow where
  id : Nat
  date : String
  notes : Option String
deriving Repr, DecidableEq

structure BodyMetricsRow where
  id : Nat
  date : String
  body_weight_kg : Option Int
  notes : Option String
deriving Repr, DecidableEq

structure SkinfoldRow where
  id : Nat
  body_metrics_id : Nat
  site_name : String
  mm : Int
deriving Repr, DecidableEq

structure Store where
  workouts : List WorkoutRow
  exercises : List ExerciseRow
  sets : List SetRow
  nutrition_days : List NutritionDayRow
  body_metrics : List BodyMetricsRow
  skinfolds : List SkinfoldRow
  workout_seq : Nat
  exercise_seq : Nat
  set_seq : Nat
  day_seq : Nat
  body_seq : Nat
  skinfold_seq : Nat
deriving Repr, DecidableEq

/-- The empty database created by `db._initialize_tables`. -/
def emptyStore : Store :=
  { workouts := [], exercises := [], sets := [], nutrition_days := [],
    body_metrics := [], skinfolds := [], workout_seq := 0, exercise_seq := 0,
    set_seq := 0, day_seq := 0, body_seq := 0, skinfold_seq := 0 }

/-- The `CHECK(side IN ('left', 'right', 'both'))` constraint of the `sets`
table; a NULL side passes (CHECK is satisfied by NULL). -/
def validSide : Option String → Bool
  | none => true
  | some s => s = "left" || s = "right" || s = "both"

/-- `INSERT INTO workouts (date_time, workout_type, tags, notes)`: no
constraints beyond NOT NULL (enforced by the types); returns the new store
and `lastrowid`. -/
def sqlInsertWorkout (st : Store) (dt : String) (wt tg nt : Option String) :
    Store × Nat :=
  let wid := st.workout_seq + 1
  ({ st with
      workouts := st.workouts ++ [⟨wid, dt, wt, tg, nt⟩]
      workout_seq := wid }, wid)

/-- `INSERT INTO exercises (workout_id, order_index, name, category, notes)`
under `PRAGMA foreign_keys = ON`: fails if the referenced workout row does
not exist. -/
def sqlInsertExercise (st : Store) (wid : Nat) (oi : Int) (nm : String)
    (cat nt : Option String) : Except PyErr (Store × Nat) :=
  if st.workouts.any (fun w => w.id == wid) then
    let eid := st.exercise_seq + 1
    .ok ({ st with
      exercises := st.exercises ++ [⟨eid, wid, oi, nm, cat, nt⟩]
      exercise_seq := eid }, eid)
  else .error (.integrityError "FOREIGN KEY constraint failed")

/-- The optional numeric/text fields of a `sets` row, in column order. -/
structure SetFields where
  reps : Option Int := none
  weight_kg : Option Int := none
  weight_lbs : Option Int := none
  distance_m : Option Int := none
  distance_yards : Option Int := none
  duration_s : Option Int := none
  side : Option String := none
  rpe : Option Int := none
  rir : Option Int := none
deriving Repr, DecidableEq

/-- `INSERT INTO sets (...)` under `PRAGMA foreign_keys = ON`: fails if the
referenced exercise row does not exist or the `side` CHECK constraint is
violated. -/
def sqlInsertSet (st : Store) (eid : Nat) (idx : Int) (f : SetFields)
    (warm : Int) : Except PyErr (Store × Nat) :=
  if ¬ st.exercises.any (fun e => e.id == eid) then
    .error (.integrityError "FOREIGN KEY constraint failed")
  else if ¬ validSide f.side then
    .error (.integrityError "CHECK constraint failed: side")
  else
    let sid := st.set_seq + 1
    .ok ({ st with
      sets := st.sets ++
        [⟨sid, eid, idx, f.reps, f.weight_kg, f.weight_lbs, f.distance_m,
          f.distance_yards, f.duration_s, f.side, f.rpe, f.rir, warm⟩]
      set_seq := sid }, sid)

/-- `INSERT INTO body_metrics (date, body_weight_kg, notes)`: the table
declares `date TEXT NOT NULL UNIQUE`, so the insert fails with an
IntegrityError when a row with the same date already exists. -/
def sqlInsertBodyMetrics (st : Store) (date : String) (bw : Option Int)
    (nt : Option String) : Except PyErr (Store × Nat) :=
  if st.body_metrics.any (fun r => r.date == date) then
    .error (.integrityError "UNIQUE constraint failed: body_metrics.date")
  else
    let mid := st.body_seq + 1
    .ok ({ st with
      body_metrics := st.body_metrics ++ [⟨mid, date, bw, nt⟩]
      body_seq := mid }, mid)

/-- `INSERT INTO skinfolds (body_metrics_id, site_name, mm)` under
`PRAGMA foreign_keys = ON`. -/
def sqlInsertSkinfold (st : Store) (mid : Nat) (site : String) (mm : Int) :
    Except PyErr (Store × Nat) :=
  if st.body_metrics.any (fun r => r.id == mid) then
    let sid := st.skinfold_seq + 1
    .ok ({ st with
      skinfolds := st.skinfolds ++ [⟨sid, mid, site, mm⟩]
      skinfold_seq := sid }, sid)
  else .error (.integrityError "FOREIGN KEY constraint failed")

/-! ## Hydration and ordering -/

/-- Stable insertion keeping `x` before the first element not strictly
below it (`lt y x` false). -/
def insertSortedBy (lt : α → α → Bool) (x : α) : List α → List α
  | [] => [x]
  | y :: ys => if lt y x then y :: insertSortedBy lt x ys else x :: y :: ys

/-- Stable sort by the strict comparison `lt`, modelling SQL `ORDER BY`. -/
def sortStableBy (lt : α → α → Bool) : List α → List α
  | [] => []
  | x :: xs => insertSortedBy lt x (sortStableBy lt xs)

/-- Byte-wise text comparison as used by SQLite's default BINARY collation
(code-point order on valid UTF-8). -/
def charsLt : List Char → List Char → Bool
  | [], [] => false
  | [], _ :: _ => true
  | _ :: _, [] => false
  | a :: as, b :: bs => if a < b then true else if b < a then false else charsLt as bs

/-- SQL `<` on TEXT values. -/
def sqlTextLt (a b : String) : Bool := charsLt a.data b.data

/-- SQL `<=` on TEXT values. -/
def sqlTextLe (a b : String) : Bool := sqlTextLt a b || a == b

/-- `main._load_sets`: `SELECT * FROM sets WHERE exercise_id = ? ORDER BY
set_index`. -/
def loadSets (st : Store) (eid : Nat) : List SetRow :=
  sortStableBy (fun a b => a.set_index < b.set_index)
    (st.sets.filter (fun s => s.exercise_id == eid))

/-- One exercise of a hydrated workout: the exercise row with its sets. -/
structure HydratedExercise where
  row : ExerciseRow
  sets : List SetRow
deriving Repr

/-- The nested structure returned by workout reads: the workout row with
`tags` deserialized and exercises (each with sets) attached. -/
structure HydratedWorkout where
  id : Nat
  date_time : String
  workout_type : Option String
  tags : JsonValue
  notes : Option String
  exercises : List HydratedExercise
deriving Repr

/-- `main._hydrate_workout`: deserialize tags, load exercises ordered by
`order_index`, load each exercise's sets ordered by `set_index`. -/
def hydrate_workout (st : Store) (w : WorkoutRow) : HydratedWorkout :=
  { id := w.id, date_time := w.date_time, workout_type := w.workout_type,
    tags := deserialize_tags w.tags, notes := w.notes,
    exercises :=
      (sortStableBy (fun a b => a.order_index < b.order_index)
          (st.exercises.filter (fun e => e.workout_id == w.id))).map
        (fun e => { row := e, sets := loadSets st e.id }) }

/-! ## Write operations -/

/-- Python `x or d` for an optional integer `x`: absent (`None`) and `0`
are falsy, any other value is returned unchanged. -/
def pyOrInt (v : Option Int) (d : Int) : Int :=
  match v with
  | none => d
  | some x => if x = 0 then d else x

/-- One set of a `log_workout` exercise payload: the optional explicit
`set_index`, the column fields, and the truthiness of `is_warmup`. -/
structure SetPayload where
  set_index : Option Int := none
  fields : SetFields := {}
  is_warmup : Bool := false
deriving Repr, DecidableEq

/-- One exercise payload of `log_workout`; `name` is optional here because
the code reads it with `.get` and validates truthiness itself. -/
structure ExercisePayload where
  name : Option String := none
  category : Option String := none
  notes : Option String := none
  sets : List SetPayload := []
deriving Repr, DecidableEq

/-- Result of one public operation: the durable store seen by later
connections, whether a connection was opened, whether `conn.close()` was
reached, and the returned value or raised error. -/
structure CallOut (α : Type) where
  durable : Store
  opened : Bool
  closed : Bool
  outcome : Except PyErr α
deriving Repr

/-- The inner loop of `log_workout` over one exercise's sets
(`enumerate(..., start=1)`): each row's stored index is
`set_payload.get("set_index") or set_index`. -/
def insertSetsLoop (st : Store) (eid : Nat) (idx : Nat) :
    List SetPayload → Except PyErr Store
  | [] => .ok st
  | p :: ps =>
    match sqlInsertSet st eid (pyOrInt p.set_index idx) p.fields
        (if p.is_warmup then 1 else 0) with
    | .error e => .error e
    | .ok (st2, _) => insertSetsLoop st2 eid (idx + 1) ps

/-- The loop of `log_workout` over exercises (`enumerate(..., start=1)`):
a falsy `name` raises `ValueError` naming the 1-based index; otherwise the
exercise row is inserted with `order_index` equal to the position and its
sets follow. -/
def insertExercisesLoop (st : Store) (wid : Nat) (idx : Nat) :
    List ExercisePayload → Except PyErr Store
  | [] => .ok st
  | ex :: rest =>
    if ex.name.getD "" = "" then
      .error (.valueError ("Exercise at index " ++ toString idx ++
        " is missing required name field"))
    else
      match sqlInsertExercise st wid (idx : Int) (ex.name.getD "")
          ex.category ex.notes with
      | .error e => .error e
      | .ok (st2, eid) =>
        match insertSetsLoop st2 eid 1 ex.sets with
        | .error e => .error e
        | .ok st3 => insertExercisesLoop st3 wid (idx + 1) rest

/-- `main.log_workout`.  The JSON-string argument normalization and type
validation of the source (its `_parse_json_array` calls and `isinstance`
checks) happen before any connection is opened and raise without touching
the store; the model takes the already-validated list arguments.  After
them the source validates `date_time`, opens a connection, inserts the
workout row, loops over exercises and sets, commits, re-reads and hydrates
the workout, closes the connection and returns.  A `ValueError` or store
error raised inside the loops propagates before `conn.commit()` and
`conn.close()`: the uncommitted connection-local writes are discarded, the
durable store is unchanged, and the connection is leaked. -/
def log_workout (date_time : String) (workout_type : Option String)
    (tags : Option (List String)) (notes : Option String)
    (exercises : Option (List ExercisePayload)) (db : Store) :
    CallOut HydratedWorkout :=
  match ensure_iso_date date_time with
  | .error e => { durable := db, opened := false, closed := false, outcome := .error e }
  | .ok dt =>
    let tags_json := serialize_tags tags
    match sqlInsertWorkout db dt workout_type tags_json notes with
    | (st1, wid) =>
      match insertExercisesLoop st1 wid 1 (exercises.getD []) with
      | .error e => { durable := db, opened := true, closed := false, outcome := .error e }
      | .ok st2 =>
        match st2.workouts.find? (fun w => w.id == wid) with
        | some row =>
          { durable := st2, opened := true, closed := true,
            outcome := .ok (hydrate_workout st2 row) }
        | none =>
          { durable := st2, opened := true, closed := false,
            outcome := .error (.typeError "argument of type NoneType is not iterable") }

/-- SQL `COALESCE(MAX(column), 0)` over a list of INTEGER values. -/
def sqlMaxInt : List Int → Int
  | [] => 0
  | x :: xs => xs.foldl max x

/-- `SELECT COALESCE(MAX(set_index), 0) FROM sets WHERE exercise_id = ?`:
the maximum stored index for the exercise, `0` when it has no sets. -/
def maxSetIndex (st : Store) (eid : Nat) : Int :=
  sqlMaxInt ((st.sets.filter (fun s => s.exercise_id == eid)).map (fun s => s.set_index))

/-- `main.add_set`: read the current maximum `set_index` for the exercise,
insert a row with that maximum plus one, commit, close. -/
def add_set (eid : Nat) (f : SetFields) (is_warmup : Bool) (db : Store) :
    CallOut Nat :=
  match sqlInsertSet db eid (maxSetIndex db eid + 1) f
      (if is_warmup then 1 else 0) with
  | .error e => { durable := db, opened := true, closed := false, outcome := .error e }
  | .ok (st, sid) => { durable := st, opened := true, closed := true, outcome := .ok sid }

/-- The skinfold loop of `log_body_metrics`; the dict argument is modelled
as an association list in insertion order. -/
def insertSkinfoldsLoop (st : Store) (mid : Nat) :
    List (String × Int) → Except PyErr Store
  | [] => .ok st
  | (site, mm) :: rest =>
    match sqlInsertSkinfold st mid site mm with
    | .error e => .error e
    | .ok (st2, _) => insertSkinfoldsLoop st2 mid rest

/-- `main.log_body_metrics`: normalize the date, insert a `body_metrics`
row (plain INSERT, no ON CONFLICT clause), insert one skinfold row per
provided site, commit, close.  An IntegrityError from the UNIQUE date
constraint propagates before commit and close. -/
def log_body_metrics (date : String) (body_weight_kg : Option Int)
    (skinfolds : Option (List (String × Int))) (notes : Option String)
    (db : Store) : CallOut Nat :=
  match ensure_date date with
  | .error e => { durable := db, opened := false, closed := false, outcome := .error e }
  | .ok d =>
    match sqlInsertBodyMetrics db d body_weight_kg notes with
    | .error e => { durable := db, opened := true, closed := false, outcome := .error e }
    | .ok (st1, mid) =>
      match insertSkinfoldsLoop st1 mid (skinfolds.getD []) with
      | .error e => { durable := db, opened := true, closed := false, outcome := .error e }
      | .ok st2 => { durable := st2, opened := true, closed := true, outcome := .ok mid }

/-! ## Raw row deletion under the schema's cascades -/

/-- SQLite `DELETE FROM workouts WHERE id = ?` under the
`ON DELETE CASCADE` foreign keys declared in `WORKOUT_TABLES_SQL`, active
because `db.get_connection` sets `PRAGMA foreign_keys = ON`: the exercises
of the workout are removed, and the sets of those exercises with them. -/
def delete_workout_row (st : Store) (wid : Nat) : Store :=
  let deadEx := (st.exercises.filter (fun e => e.workout_id == wid)).map (fun e => e.id)
  { st with
    workouts := st.workouts.filter (fun w => w.id != wid)
    exercises := st.exercises.filter (fun e => e.workout_id != wid)
    sets := st.sets.filter (fun s => !(deadEx.contains s.exercise_id)) }

/-- SQLite `DELETE FROM sets WHERE id = ?` (no table references `sets`, so
no cascade). -/
def delete_set_row (st : Store) (sid : Nat) : Store :=
  { st with sets := st.sets.filter (fun s => s.id != sid) }

/-! ## Query building: LIKE, filters, pagination -/

/-- ASCII case folding as applied by SQLite's default `LIKE`. -/
def likeFoldChar (c : Char) : Char :=
  if 'A' ≤ c ∧ c ≤ 'Z' then Char.ofNat (c.toNat + 32) else c

/-- Fuel-indexed core of `likeMatch`: every recursive call strictly shrinks
`pattern.length + s.length`, so the fuel passed by `likeMatch` never runs
out. -/
def likeMatchF : Nat → List Char → List Char → Bool
  | 0, _, _ => false
  | _ + 1, [], [] => true
  | _ + 1, [], _ :: _ => false
  | fuel + 1, '%' :: ps, s =>
    likeMatchF fuel ps s ||
      (match s with
       | [] => false
       | _ :: ss => likeMatchF fuel ('%' :: ps) ss)
  | fuel + 1, '_' :: ps, s =>
    (match s with
     | [] => false
     | _ :: ss => likeMatchF fuel ps ss)
  | fuel + 1, p :: ps, s =>
    (match s with
     | [] => false
     | c :: ss => likeFoldChar p = likeFoldChar c && likeMatchF fuel ps ss)

/-- SQLite `LIKE` matching (no ESCAPE clause): `%` matches any sequence,
`_` matches any single character, other characters match
ASCII-case-insensitively. -/
def likeMatch (pat s : List Char) : Bool :=
  likeMatchF (pat.length + s.length + 1) pat s

/-- `column LIKE pattern` where the column may be NULL: a NULL operand
makes the comparison NULL, which excludes the row (or contributes false to
an OR). -/
def optLike (pattern : String) : Option String → Bool
  | none => false
  | some s => likeMatch pattern.data s.data

/-- Python truthiness for an optional string parameter guarding a filter
(`if from_date:`): absent and empty are falsy. -/
def pyTruthyStr : Option String → Option String
  | none => none
  | some s => if s.data.isEmpty then none else some s

/-- SQL `LIMIT ? OFFSET ?` with SQLite semantics: a negative LIMIT means no
bound, a negative OFFSET means zero. -/
def sqlLimitOffset (limit offset : Int) (l : List α) : List α :=
  if limit < 0 then l.drop (if offset < 0 then 0 else offset.toNat)
  else (l.drop (if offset < 0 then 0 else offset.toNat)).take limit.toNat

/-- SQL `LIMIT ?` alone. -/
def sqlLimit (limit : Int) (l : List α) : List α :=
  if limit < 0 then l else l.take limit.toNat

/-- The WHERE clause assembled by `get_workouts`, applied to one row:
date bounds compare `date_time` against `"{date}T00:00:00"` and
`"{date}T23:59:59"` as text, `workout_type = ?` excludes NULL types, and
the tag filter is `tags LIKE '%"{tag}"%'`. -/
def workoutRowMatches (fromBound toBound wt tag : Option String)
    (w : WorkoutRow) : Bool :=
  (match fromBound with
   | none => true
   | some d => sqlTextLe (d ++ "T00:00:00") w.date_time) &&
  (match toBound with
   | none => true
   | some d => sqlTextLe w.date_time (d ++ "T23:59:59")) &&
  (match wt with
   | none => true
   | some t => w.workout_type == some t) &&
  (match tag with
   | none => true
   | some t => optLike ("%\"" ++ t ++ "\"%") w.tags)

/-- Resolve the optional date-range parameters the way the query builders
do: a falsy parameter adds no filter, a truthy one is passed through
`_ensure_date`, whose `ValueError` propagates. -/
def resolveDateBounds (from_date to_date : Option String) :
    Except PyErr (Option String × Option String) :=
  match pyTruthyStr from_date with
  | some s =>
    match ensure_date s with
    | .error e => .error e
    | .ok d =>
      match pyTruthyStr to_date with
      | some t =>
        match ensure_date t with
        | .error e => .error e
        | .ok d2 => .ok (some d, some d2)
      | none => .ok (some d, none)
  | none =>
    match pyTruthyStr to_date with
    | some t =>
      match ensure_date t with
      | .error e => .error e
      | .ok d2 => .ok (none, some d2)
    | none => .ok (none, none)

/-- `main.get_workouts`: filter, `ORDER BY date_time DESC`, `LIMIT ?
OFFSET ?`, hydrate each row.  Read-only: the durable store is unchanged
and the outcome alone is modelled. -/
def get_workouts (from_date to_date workout_type tag : Option String)
    (limit offset : Int) (db : Store) :
    Except PyErr (List HydratedWorkout) :=
  match resolveDateBounds from_date to_date with
  | .error e => .error e
  | .ok (fb, tb) =>
    let rows := db.workouts.filter
      (workoutRowMatches fb tb (pyTruthyStr workout_type) (pyTruthyStr tag))
    let sorted := sortStableBy (fun a b => sqlTextLt b.date_time a.date_time) rows
    .ok ((sqlLimitOffset limit offset sorted).map (hydrate_workout db))

/-! ## Cross-domain search -/

/-- One `search_logs` result: the matched record tagged with its domain. -/
inductive SearchResult where
  | workout (w : HydratedWorkout)
  | nutrition (row : NutritionDayRow)
  | body (row : BodyMetricsRow)
deriving Repr

/-- Domain priority of a result: workout before nutrition before body. -/
def SearchResult.domainRank : SearchResult → Nat
  | .workout _ => 0
  | .nutrition _ => 1
  | .body _ => 2

/-- The `"domain"` tag attached to a result. -/
def SearchResult.domainTag : SearchResult → String
  | .workout _ => "workout"
  | .nutrition _ => "nutrition"
  | .body _ => "body"

/-- The result of `search_logs`, instrumented with the ghost list of domain
queries actually issued (in issue order), which the source's control flow
determines but does not return. -/
structure SearchOut where
  results : List SearchResult
  queried : List String
deriving Repr

/-- The workout WHERE clause of `search_logs`:
`(notes LIKE ? OR workout_type LIKE ? OR tags LIKE ?)` plus the date
bounds. -/
def searchWorkoutMatches (q : String) (fb tb : Option String)
    (w : WorkoutRow) : Bool :=
  (optLike ("%" ++ q ++ "%") w.notes || optLike ("%" ++ q ++ "%") w.workout_type ||
    optLike ("%" ++ q ++ "%") w.tags) &&
  (match fb with
   | none => true
   | some d => sqlTextLe (d ++ "T00:00:00") w.date_time) &&
  (match tb with
   | none => true
   | some d => sqlTextLe w.date_time (d ++ "T23:59:59"))

/-- The nutrition/body WHERE clause of `search_logs`: `notes LIKE ?` plus
date bounds compared against the row's `date` column. -/
def searchNotesMatches (q : String) (fb tb : Option String)
    (date : String) (notes : Option String) : Bool :=
  optLike ("%" ++ q ++ "%") notes &&
  (match fb with
   | none => true
   | some d => sqlTextLe d date) &&
  (match tb with
   | none => true
   | some d => sqlTextLe date d)

/-- The workout block of `search_logs`: resolve date bounds, query with
`LIMIT ?` bound to the full `limit`, hydrate each row. -/
def searchWorkoutBlock (q : String) (from_date to_date : Option String)
    (limit : Int) (db : Store) : Except PyErr (List SearchResult) :=
  match resolveDateBounds from_date to_date with
  | .error e => .error e
  | .ok (fb, tb) =>
    .ok ((sqlLimit limit (db.workouts.filter (searchWorkoutMatches q fb tb))).map
      (fun w => .workout (hydrate_workout db w)))

/-- The nutrition block of `search_logs`, with `LIMIT ?` bound to the
remaining budget. -/
def searchNutritionBlock (q : String) (from_date to_date : Option String)
    (remaining : Int) (db : Store) : Except PyErr (List SearchResult) :=
  match resolveDateBounds from_date to_date with
  | .error e => .error e
  | .ok (fb, tb) =>
    .ok ((sqlLimit remaining (db.nutrition_days.filter
        (fun r => searchNotesMatches q fb tb r.date r.notes))).map .nutrition)

/-- The body block of `search_logs`, with `LIMIT ?` bound to the remaining
budget. -/
def searchBodyBlock (q : String) (from_date to_date : Option String)
    (remaining : Int) (db : Store) : Except PyErr (List SearchResult) :=
  match resolveDateBounds from_date to_date with
  | .error e => .error e
  | .ok (fb, tb) =>
    .ok ((sqlLimit remaining (db.body_metrics.filter
        (fun r => searchNotesMatches q fb tb r.date r.notes))).map .body)

/-- Python list slicing `results[:limit]` for an `int` bound: a
nonnegative bound takes that many from the front, a negative bound drops
that many from the end. -/
def pySliceTo (limit : Int) (l : List α) : List α :=
  if 0 ≤ limit then l.take limit.toNat
  else l.take (l.length - limit.natAbs)

/-- `main.search_logs`: default the domains when the argument is falsy,
then visit workout, nutrition, body in that order; after the workout and
nutrition blocks, return `results[:limit]` early once `len(results) >=
limit`; the nutrition and body queries are bound to the remaining budget
`limit - len(results)`.  `resolvedDomains` is the defaulting of the falsy
`domains` argument (`domains = domains or [...]`). -/
def resolvedDomains (domains : Option (List String)) : List String :=
  match domains with
  | none => ["workout", "nutrition", "body"]
  | some [] => ["workout", "nutrition", "body"]
  | some ds => ds

def search_logs (query : String) (domains : Option (List String))
    (from_date to_date : Option String) (limit : Int) (db : Store) :
    Except PyErr SearchOut :=
  let doms := resolvedDomains domains
  match (if doms.contains "workout"
         then searchWorkoutBlock query from_date to_date limit db
         else .ok []) with
  | .error e => .error e
  | .ok w =>
    let q1 := if doms.contains "workout" then ["workout"] else []
    if limit ≤ (w.length : Int) then
      .ok { results := pySliceTo limit w, queried := q1 }
    else
      match (if doms.contains "nutrition"
             then searchNutritionBlock query from_date to_date
               (limit - (w.length : Int)) db
             else .ok []) with
      | .error e => .error e
      | .ok n =>
        let q2 := q1 ++ (if doms.contains "nutrition" then ["nutrition"] else [])
        if limit ≤ ((w.length : Int) + (n.length : Int)) then
          .ok { results := pySliceTo limit (w ++ n), queried := q2 }
        else
          match (if doms.contains "body"
                 then searchBodyBlock query from_date to_date
                   (limit - ((w.length : Int) + (n.length : Int))) db
                 else .ok []) with
          | .error e => .error e
          | .ok b =>
            .ok { results := (w ++ n) ++ b
                  queried := q2 ++ (if doms.contains "body" then ["body"] else []) }

/-! ## Derived helpers and concrete stores used by the claim theorems -/

/-- The stored `set_index` values assigned by the inner loop of
`log_workout` to a list of set payloads whose first element sits at
position `idx`: `set_payload.get("set_index") or position`. -/
def setIndexPlan (idx : Nat) : List SetPayload → List Int
  | [] => []
  | p :: ps => pyOrInt p.set_index (idx : Int) :: setIndexPlan (idx + 1) ps


/-- `N` successive `add_set` calls (all-default fields) on one exercise,
each operating on the durable store left by the previous call. -/
def addSetN (eid : Nat) : Nat → Store → Store
  | 0, db => db
  | n + 1, db => addSetN eid n (add_set eid {} false db).durable

/-- The integer list `[1, ..., k]`. -/
def intRange1 (k : Nat) : List Int :=
  (List.range k).map (fun j => (j : Int) + 1)

/-- Number of results carrying the given domain rank. -/
def countDomain (k : Nat) (l : List SearchResult) : Nat :=
  (l.filter (fun r => r.domainRank == k)).length

/-- A store with one workout, one exercise and one set (`set_index` 1),
with the sequence counters in their post-insert states. -/
def c7db : Store :=
  { emptyStore with
    workouts := [⟨1, "2026-01-06T18:30:00", none, none, none⟩]
    exercises := [⟨1, 1, 1, "Squat", none, none⟩]
    sets := [⟨1, 1, 1, some 5, some 100, none, none, none, none, none, none, none, 0⟩]
    workout_seq := 1
    exercise_seq := 1
    set_seq := 1 }

/-- A store with one `body_metrics` row for 2026-01-06 and its skinfold. -/
def c1db : Store :=
  { emptyStore with
    body_metrics := [⟨1, "2026-01-06", some 80, none⟩]
    skinfolds := [⟨1, 1, "abdomen", 10⟩]
    body_seq := 1
    skinfold_seq := 1 }

/-- A store with two workouts (ids 1 and 2); workout 1 has two exercises
with three sets altogether, workout 2 has one exercise with one set. -/
def c6db : Store :=
  { emptyStore with
    workouts := [⟨1, "2026-01-06T18:30:00", none, none, none⟩,
                 ⟨2, "2026-01-07T18:30:00", none, none, none⟩]
    exercises := [⟨1, 1, 1, "Squat", none, none⟩, ⟨2, 1, 2, "Bench", none, none⟩,
                  ⟨3, 2, 1, "Row", none, none⟩]
    sets := [⟨1, 1, 1, some 5, none, none, none, none, none, none, none, none, 0⟩,
             ⟨2, 1, 2, some 5, none, none, none, none, none, none, none, none, 0⟩,
             ⟨3, 2, 1, some 8, none, none, none, none, none, none, none, none, 0⟩,
             ⟨4, 3, 1, some 10, none, none, none, none, none, none, none, none, 0⟩]
    workout_seq := 2
    exercise_seq := 3
    set_seq := 4 }

/-- A store with two workouts whose day bounds exercise the `get_workouts`
date filters: the last second of 2026-01-06 and the first second of
2026-01-07. -/
def c8db : Store :=
  { emptyStore with
    workouts := [⟨1, "2026-01-06T23:59:59", none, none, none⟩,
                 ⟨2, "2026-01-07T00:00:00", none, none, none⟩]
    workout_seq := 2 }

/-- Seven nutrition days whose notes all contain "pizza". -/
def c9db : Store :=
  { emptyStore with
    nutrition_days :=
      [⟨1, "2026-01-01", some "had pizza today"⟩, ⟨2, "2026-01-02", some "had pizza today"⟩,
       ⟨3, "2026-01-03", some "had pizza today"⟩, ⟨4, "2026-01-04", some "had pizza today"⟩,
       ⟨5, "2026-01-05", some "had pizza today"⟩, ⟨6, "2026-01-06", some "had pizza today"⟩,
       ⟨7, "2026-01-07", some "had pizza today"⟩]
    day_seq := 7 }

/-- The output `search_logs "pizza" (some ["nutrition"]) none none 5 c9db`
evaluates to: the first five matching days, tagged nutrition. -/
def c9out : SearchOut :=
  { results :=
      [.nutrition ⟨1, "2026-01-01", some "had pizza today"⟩,
       .nutrition ⟨2, "2026-01-02", some "had pizza today"⟩,
       .nutrition ⟨3, "2026-01-03", some "had pizza today"⟩,
       .nutrition ⟨4, "2026-01-04", some "had pizza today"⟩,
       .nutrition ⟨5, "2026-01-05", some "had pizza today"⟩]
    queried := ["nutrition"] }

/-- Two workouts whose notes contain "pizza" (for the negative-limit
counterexample to C9). -/
def c9negdb : Store :=
  { emptyStore with
    workouts := [⟨1, "2026-01-01T10:00:00", none, none, some "pizza day"⟩,
                 ⟨2, "2026-01-02T10:00:00", none, none, some "pizza night"⟩]
    workout_seq := 2 }


/-- A store with one workout and one exercise and no sets. -/
def c7fresh : Store :=
  { emptyStore with
    workouts := [⟨1, "2026-01-06T18:30:00", none, none, none⟩]
    exercises := [⟨1, 1, 1, "Squat", none, none⟩]
    workout_seq := 1
    exercise_seq := 1 }

/-! ## Lemmas about the JSON embedding -/

theorem hexVal_hexDigitChar {d : Nat} (h : d < 16) :
    hexVal (hexDigitChar d) = some d := by
  interval_cases d <;> decide

theorem parseHex4_hex4 {n : Nat} (h : n < 0x10000) (r : List Char) :
    parseHex4 (hex4 n ++ r) = some (n, r) := by
  have h1 : n / 4096 % 16 < 16 := Nat.mod_lt _ (by omega)
  have h2 : n / 256 % 16 < 16 := Nat.mod_lt _ (by omega)
  have h3 : n / 16 % 16 < 16 := Nat.mod_lt _ (by omega)
  have h4 : n % 16 < 16 := Nat.mod_lt _ (by omega)
  simp only [hex4, List.cons_append, List.nil_append, parseHex4,
    hexVal_hexDigitChar h1, hexVal_hexDigitChar h2, hexVal_hexDigitChar h3,
    hexVal_hexDigitChar h4]
  congr 1
  congr 1
  omega

theorem char_valid_nat (c : Char) :
    c.toNat < 0xd800 ∨ (0xe000 ≤ c.toNat ∧ c.toNat < 0x110000) := by
  have h := c.valid
  rcases h with h | h
  · exact Or.inl h
  · exact Or.inr h

theorem encChar_ne_nil (c : Char) : encChar c ≠ [] := by
  intro h
  unfold encChar at h
  iterate 10 (all_goals (try split at h))
  all_goals simp_all

theorem length_le_encStr (cs : List Char) : cs.length ≤ (encStr cs).length := by
  induction cs with
  | nil => simp [encStr]
  | cons c cs ih =>
    have h := encChar_ne_nil c
    have h1 : 1 ≤ (encChar c).length := by
      cases hc : encChar c with
      | nil => exact absurd hc h
      | cons _ _ => simp
    simp only [encStr, List.length_append, List.length_cons]
    omega

theorem skipWs_not_ws {c : Char} (h : isJsonWs c = false) (cs : List Char) :
    skipWs (c :: cs) = c :: cs := by
  simp [skipWs, h]


theorem parseEscape_char_bs (r : List Char) :
    parseEscape ('\\' :: r) = some ('\\', r) := rfl

theorem parseEscape_char_quote (r : List Char) :
    parseEscape ('"' :: r) = some ('"', r) := rfl

theorem parseEscape_char_b (r : List Char) :
    parseEscape ('b' :: r) = some ('\x08', r) := rfl

theorem parseEscape_char_f (r : List Char) :
    parseEscape ('f' :: r) = some ('\x0c', r) := rfl

theorem parseEscape_char_n (r : List Char) :
    parseEscape ('n' :: r) = some ('\n', r) := rfl

theorem parseEscape_char_r (r : List Char) :
    parseEscape ('r' :: r) = some ('\r', r) := rfl

theorem parseEscape_char_t (r : List Char) :
    parseEscape ('t' :: r) = some ('\t', r) := rfl

theorem parseEscape_u_plain {n : Nat} {rest rest2 : List Char}
    (hp : parseHex4 rest = some (n, rest2))
    (hlo : ¬ (0xd800 ≤ n ∧ n ≤ 0xdbff)) (hhi : ¬ (0xdc00 ≤ n ∧ n ≤ 0xdfff)) :
    parseEscape ('u' :: rest) = some (Char.ofNat n, rest2) := by
  simp only [parseEscape, if_neg (by decide : ¬ ('u' : Char) = '"'),
    if_neg (by decide : ¬ ('u' : Char) = '\\'),
    if_neg (by decide : ¬ ('u' : Char) = '/'),
    if_neg (by decide : ¬ ('u' : Char) = 'b'),
    if_neg (by decide : ¬ ('u' : Char) = 'f'),
    if_neg (by decide : ¬ ('u' : Char) = 'n'),
    if_neg (by decide : ¬ ('u' : Char) = 'r'),
    if_neg (by decide : ¬ ('u' : Char) = 't'),
    if_pos (rfl : ('u' : Char) = 'u'), hp]
  rw [if_neg hlo, if_neg hhi]
  simp

theorem parseEscape_u_pair {n m : Nat} {rest rest3 rest4 : List Char}
    (hp1 : parseHex4 rest = some (n, '\\' :: 'u' :: rest3))
    (hn : 0xd800 ≤ n ∧ n ≤ 0xdbff)
    (hp2 : parseHex4 rest3 = some (m, rest4))
    (hm : 0xdc00 ≤ m ∧ m ≤ 0xdfff) :
    parseEscape ('u' :: rest) =
      some (Char.ofNat (0x10000 + (n - 0xd800) * 1024 + (m - 0xdc00)), rest4) := by
  simp only [parseEscape, if_neg (by decide : ¬ ('u' : Char) = '"'),
    if_neg (by decide : ¬ ('u' : Char) = '\\'),
    if_neg (by decide : ¬ ('u' : Char) = '/'),
    if_neg (by decide : ¬ ('u' : Char) = 'b'),
    if_neg (by decide : ¬ ('u' : Char) = 'f'),
    if_neg (by decide : ¬ ('u' : Char) = 'n'),
    if_neg (by decide : ¬ ('u' : Char) = 'r'),
    if_neg (by decide : ¬ ('u' : Char) = 't'),
    if_pos (rfl : ('u' : Char) = 'u'), hp1]
  rw [if_pos hn]
  simp only [hp2]
  rw [if_pos hm]
  simp

theorem psb_close (fuel : Nat) (r : List Char) :
    parseStringBody (fuel + 1) ('"' :: r) = some ([], r) := by
  simp [parseStringBody]

theorem psb_esc_ok {r rest2 s rr : List Char} {ch : Char} {fuel : Nat}
    (h1 : parseEscape r = some (ch, rest2))
    (h2 : parseStringBody fuel rest2 = some (s, rr)) :
    parseStringBody (fuel + 1) ('\\' :: r) = some (ch :: s, rr) := by
  simp only [parseStringBody, if_neg (by decide : ¬ ('\\' : Char) = '"'),
    if_pos (rfl : ('\\' : Char) = '\\'), h1, h2]
  simp

theorem psb_lit {c : Char} (h1 : ¬ c = '"') (h2 : ¬ c = '\\')
    (h3 : ¬ c.toNat < 0x20) {fuel : Nat} {r s rr : List Char}
    (h4 : parseStringBody fuel r = some (s, rr)) :
    parseStringBody (fuel + 1) (c :: r) = some (c :: s, rr) := by
  simp only [parseStringBody, if_neg h1, if_neg h2, h4]
  rw [if_neg (by simpa using h3)]

theorem parseStringBody_encStr (cs : List Char) :
    ∀ (fuel : Nat) (rest : List Char), cs.length < fuel →
      parseStringBody fuel (encStr cs ++ '"' :: rest) = some (cs, rest) := by
  induction cs with
  | nil =>
    intro fuel rest h
    match fuel, h with
    | fuel + 1, _ => exact psb_close fuel rest
  | cons c cs ih =>
    intro fuel rest h
    match fuel, h with
    | fuel + 1, h =>
    have hfuel : cs.length < fuel := by simpa using Nat.lt_of_succ_lt_succ h
    have hrec := ih fuel rest hfuel
    have hval := char_valid_nat c
    show parseStringBody (fuel + 1) ((encChar c ++ encStr cs) ++ '"' :: rest) = _
    rw [List.append_assoc]
    by_cases h1 : c = '\\'
    · rw [show encChar c = ['\\', '\\'] by rw [h1]; rfl]
      rw [List.cons_append, List.cons_append, List.nil_append,
        psb_esc_ok (parseEscape_char_bs _) hrec, h1]
    by_cases h2 : c = '"'
    · rw [show encChar c = ['\\', '"'] by rw [h2]; rfl]
      rw [List.cons_append, List.cons_append, List.nil_append,
        psb_esc_ok (parseEscape_char_quote _) hrec, h2]
    by_cases h3 : c = '\x08'
    · rw [show encChar c = ['\\', 'b'] by rw [h3]; rfl]
      rw [List.cons_append, List.cons_append, List.nil_append,
        psb_esc_ok (parseEscape_char_b _) hrec, h3]
    by_cases h4 : c = '\x0c'
    · rw [show encChar c = ['\\', 'f'] by rw [h4]; rfl]
      rw [List.cons_append, List.cons_append, List.nil_append,
        psb_esc_ok (parseEscape_char_f _) hrec, h4]
    by_cases h5 : c = '\n'
    · rw [show encChar c = ['\\', 'n'] by rw [h5]; rfl]
      rw [List.cons_append, List.cons_append, List.nil_append,
        psb_esc_ok (parseEscape_char_n _) hrec, h5]
    by_cases h6 : c = '\r'
    · rw [show encChar c = ['\\', 'r'] by rw [h6]; rfl]
      rw [List.cons_append, List.cons_append, List.nil_append,
        psb_esc_ok (parseEscape_char_r _) hrec, h6]
    by_cases h7 : c = '\t'
    · rw [show encChar c = ['\\', 't'] by rw [h7]; rfl]
      rw [List.cons_append, List.cons_append, List.nil_append,
        psb_esc_ok (parseEscape_char_t _) hrec, h7]
    by_cases h8 : c.toNat < 0x20
    · rw [show encChar c = '\\' :: 'u' :: hex4 c.toNat by
        simp [encChar, h1, h2, h3, h4, h5, h6, h7, h8]]
      have hhex := @parseHex4_hex4 c.toNat (by omega) (encStr cs ++ '"' :: rest)
      rw [List.cons_append, List.cons_append,
        psb_esc_ok (parseEscape_u_plain hhex (by omega) (by omega)) hrec,
        Char.ofNat_toNat]
    by_cases h9 : c.toNat ≤ 0x7e
    · rw [show encChar c = [c] by simp [encChar, h1, h2, h3, h4, h5, h6, h7, h8, h9]]
      rw [List.cons_append, List.nil_append, psb_lit h2 h1 h8 hrec]
    by_cases h10 : c.toNat < 0x10000
    · rw [show encChar c = '\\' :: 'u' :: hex4 c.toNat by
        simp [encChar, h1, h2, h3, h4, h5, h6, h7, h8, h9, h10]]
      have hhex := @parseHex4_hex4 c.toNat h10 (encStr cs ++ '"' :: rest)
      rw [List.cons_append, List.cons_append,
        psb_esc_ok (parseEscape_u_plain hhex (by omega) (by omega)) hrec,
        Char.ofNat_toNat]
    · rw [show encChar c =
          '\\' :: 'u' :: (hex4 (0xd800 + (c.toNat - 0x10000) / 1024) ++
            ('\\' :: 'u' :: hex4 (0xdc00 + (c.toNat - 0x10000) % 1024))) by
        simp [encChar, h1, h2, h3, h4, h5, h6, h7, h8, h9, h10]]
      have hcub : c.toNat < 0x110000 := by omega
      have hdiv : (c.toNat - 0x10000) / 1024 < 1024 := by omega
      have hmod : (c.toNat - 0x10000) % 1024 < 1024 := Nat.mod_lt _ (by omega)
      have hhex2 := @parseHex4_hex4 (0xdc00 + (c.toNat - 0x10000) % 1024)
        (by omega) (encStr cs ++ '"' :: rest)
      have hhex1 := @parseHex4_hex4 (0xd800 + (c.toNat - 0x10000) / 1024)
        (by omega)
        ('\\' :: 'u' :: (hex4 (0xdc00 + (c.toNat - 0x10000) % 1024) ++
          (encStr cs ++ '"' :: rest)))
      have hchar : Char.ofNat (0x10000 +
          (0xd800 + (c.toNat - 0x10000) / 1024 - 0xd800) * 1024 +
          (0xdc00 + (c.toNat - 0x10000) % 1024 - 0xdc00)) = c := by
        have heq : 0x10000 + (0xd800 + (c.toNat - 0x10000) / 1024 - 0xd800) * 1024 +
            (0xdc00 + (c.toNat - 0x10000) % 1024 - 0xdc00) = c.toNat := by
          have := Nat.div_add_mod (c.toNat - 0x10000) 1024
          omega
        rw [heq, Char.ofNat_toNat]
      rw [List.cons_append, List.cons_append, List.append_assoc,
        List.cons_append, List.cons_append,
        psb_esc_ok (parseEscape_u_pair hhex1 (by omega) hhex2 (by omega)) hrec,
        hchar]

theorem parseValue_quoted (s : String) (rest : List Char) {fuel : Nat} (h : 1 ≤ fuel) :
    parseValue fuel ('"' :: (encStr s.data ++ '"' :: rest)) =
      some (.jstr s, rest) := by
  match fuel, h with
  | fuel + 1, _ =>
    have hlen : s.data.length < (encStr s.data ++ '"' :: rest).length + 1 := by
      have := length_le_encStr s.data
      simp only [List.length_append, List.length_cons]
      omega
    simp only [parseValue, if_pos (rfl : ('"' : Char) = '"')]
    rw [parseStringBody_encStr s.data _ rest hlen]
    cases s
    rfl

theorem skipWs_encMoreItems (ts : List String) (r : List Char) :
    skipWs (encMoreItems ts ++ ']' :: r) = encMoreItems ts ++ ']' :: r := by
  cases ts with
  | nil => simp [encMoreItems, skipWs, isJsonWs]
  | cons s ts => simp [encMoreItems, skipWs, isJsonWs]

theorem parseArrayTail_enc (ts : List String) :
    ∀ (fuel : Nat) (acc : List JsonValue) (rest : List Char), ts.length < fuel →
      parseArrayTail fuel acc (encMoreItems ts ++ ']' :: rest) =
        some (.jarr (acc.reverse ++ ts.map .jstr), rest) := by
  induction ts with
  | nil =>
    intro fuel acc rest h
    match fuel, h with
    | fuel + 1, _ => simp [encMoreItems, parseArrayTail]
  | cons s ts ih =>
    intro fuel acc rest h
    match fuel, h with
    | fuel + 1, h =>
    have hfuel : ts.length < fuel := Nat.lt_of_succ_lt_succ h
    have hshape : encMoreItems (s :: ts) ++ ']' :: rest =
        ',' :: ' ' :: '"' :: (encStr s.data ++ '"' :: (encMoreItems ts ++ ']' :: rest)) := by
      simp [encMoreItems]
    rw [hshape]
    simp only [parseArrayTail, if_neg (by decide : ¬ (',' : Char) = ']'),
      if_pos (rfl : (',' : Char) = ','), if_true]
    rw [show skipWs (' ' :: '"' :: (encStr s.data ++ '"' :: (encMoreItems ts ++ ']' :: rest)))
        = '"' :: (encStr s.data ++ '"' :: (encMoreItems ts ++ ']' :: rest)) by
      simp [skipWs, isJsonWs]]
    rw [parseValue_quoted s _ (by omega)]
    show parseArrayTail fuel (JsonValue.jstr s :: acc)
      (skipWs (encMoreItems ts ++ ']' :: rest)) = _
    rw [skipWs_encMoreItems]
    rw [ih fuel (.jstr s :: acc) rest hfuel]
    simp

theorem parseValue_dumpsList (T : List String) (rest : List Char) {fuel : Nat}
    (h : T.length + 2 ≤ fuel) :
    parseValue fuel ('[' :: (encItems T ++ ']' :: rest)) =
      some (.jarr (T.map .jstr), rest) := by
  match fuel, h with
  | fuel + 1, h =>
  have hf : T.length + 1 ≤ fuel := by omega
  simp only [parseValue, if_neg (by decide : ¬ ('[' : Char) = '"'),
    if_pos (rfl : ('[' : Char) = '[')]
  cases T with
  | nil =>
    rw [show skipWs (encItems [] ++ ']' :: rest) = ']' :: rest by
      simp [encItems, skipWs, isJsonWs]]
    match fuel, hf with
    | fuel + 1, _ => simp [parseArrayBody]
  | cons s ts =>
    rw [show skipWs (encItems (s :: ts) ++ ']' :: rest) =
        '"' :: (encStr s.data ++ '"' :: (encMoreItems ts ++ ']' :: rest)) by
      simp [encItems, skipWs, isJsonWs]]
    match fuel, hf with
    | fuel + 1, hf =>
    simp only [parseArrayBody, if_neg (by decide : ¬ ('"' : Char) = ']')]
    rw [parseValue_quoted s _ (by simp at hf; omega)]
    show parseArrayTail fuel [JsonValue.jstr s]
      (skipWs (encMoreItems ts ++ ']' :: rest)) = _
    rw [skipWs_encMoreItems]
    rw [parseArrayTail_enc ts fuel [.jstr s] rest (by simp at hf; omega)]
    simp

theorem length_le_encMoreItems (ts : List String) :
    ts.length ≤ (encMoreItems ts).length := by
  induction ts with
  | nil => simp [encMoreItems]
  | cons s ts ih => simp [encMoreItems]; omega

theorem length_le_encItems (T : List String) :
    T.length ≤ (encItems T).length := by
  cases T with
  | nil => simp [encItems]
  | cons s ts =>
    have := length_le_encMoreItems ts
    simp [encItems]
    omega

theorem jsonLoads_dumps (T : List String) :
    jsonLoads (jsonDumpsStrList T) = some (.jarr (T.map .jstr)) := by
  have hdata : (jsonDumpsStrList T).data = '[' :: (encItems T ++ ']' :: []) := rfl
  unfold jsonLoads
  rw [hdata]
  rw [show skipWs ('[' :: (encItems T ++ ']' :: [])) = '[' :: (encItems T ++ ']' :: []) by
    simp [skipWs, isJsonWs]]
  have hfuel : T.length + 2 ≤ 2 * ('[' :: (encItems T ++ ']' :: [])).length + 2 := by
    have := length_le_encItems T
    simp only [List.length_cons, List.length_append]
    omega
  rw [parseValue_dumpsList T [] hfuel]
  rfl

/-! ## Claims C2 and C5: tag serialization round trip and soft decoding -/

/-- C2, counterexample.  The claim says `deserializeTags(serializeTags(absent))`
is absent; in the code `serialize_tags None` is `None` and
`deserialize_tags None` returns the empty list (`if not text: return []`),
not the absent marker `None` (modelled as `jnull`). -/
theorem c2_absent_roundtrip_counterexample :
    deserialize_tags (serialize_tags none) = JsonValue.jarr [] ∧
    deserialize_tags (serialize_tags none) ≠ JsonValue.jnull := by
  refine ⟨rfl, ?_⟩
  intro h
  exact JsonValue.noConfusion h

/-- C2 (amended): for every ordered list of strings `T`,
`deserialize_tags (serialize_tags (some T))` returns exactly `T` (embedded
as a JSON array of strings), including the empty list; `serialize_tags` maps
absent to absent; but `deserialize_tags` maps absent to the empty list, so
absent round-trips to the empty list rather than to absent. -/
theorem c2_tags_roundtrip_amended (T : List String) :
    deserialize_tags (serialize_tags (some T)) = JsonValue.jarr (T.map JsonValue.jstr) ∧
    serialize_tags none = none ∧
    deserialize_tags none = JsonValue.jarr [] := by
  refine ⟨?_, rfl, rfl⟩
  show deserialize_tags (some (jsonDumpsStrList T)) = _
  unfold deserialize_tags
  show (if (jsonDumpsStrList T).data.isEmpty = true then JsonValue.jarr []
    else match jsonLoads (jsonDumpsStrList T) with
      | some v => v
      | none => JsonValue.jarr []) = _
  rw [if_neg (by simp [jsonDumpsStrList]), jsonLoads_dumps T]

/-- C5, counterexample.  `"true"` is not a well-formed tag encoding (it is
not a JSON array), yet `deserialize_tags` does not return the empty list:
`json.loads` parses it successfully and the parsed non-list value is
returned unchanged. -/
theorem c5_valid_nonlist_json_counterexample :
    deserialize_tags (some "true") = JsonValue.jbool true ∧
    JsonValue.jbool true ≠ JsonValue.jarr [] := by
  refine ⟨rfl, ?_⟩
  intro h
  exact JsonValue.noConfusion h

/-- C5 (amended): `deserialize_tags` never raises (it is a total function),
and returns the empty list for absent input, for empty text, and for any
text on which JSON decoding fails; but text that parses as JSON is returned
as the parsed value even when that value is not a list of strings. -/
theorem c5_malformed_tags_amended :
    deserialize_tags none = JsonValue.jarr [] ∧
    deserialize_tags (some "") = JsonValue.jarr [] ∧
    (∀ s : String, jsonLoads s = none → deserialize_tags (some s) = JsonValue.jarr []) ∧
    (∀ s : String, ∀ v : JsonValue, ¬ s.data.isEmpty → jsonLoads s = some v →
      deserialize_tags (some s) = v) := by
  refine ⟨rfl, rfl, ?_, ?_⟩
  · intro s h
    unfold deserialize_tags
    show (if s.data.isEmpty = true then JsonValue.jarr []
      else match jsonLoads s with
        | some v => v
        | none => JsonValue.jarr []) = _
    by_cases he : s.data.isEmpty
    · rw [if_pos he]
    · rw [if_neg he, h]
  · intro s v he h
    unfold deserialize_tags
    show (if s.data.isEmpty = true then JsonValue.jarr []
      else match jsonLoads s with
        | some v => v
        | none => JsonValue.jarr []) = _
    rw [if_neg he, h]

/-- Witness for C5 (amended), at the concrete malformed encoding `"[oops"`
and the concrete well-formed non-list input `"true"`. -/
theorem c5_malformed_tags_amended_witness :
    deserialize_tags (some "[oops") = JsonValue.jarr [] ∧
    deserialize_tags (some "true") = JsonValue.jbool true :=
  ⟨c5_malformed_tags_amended.2.2.1 "[oops" rfl,
   c5_malformed_tags_amended.2.2.2 "true" (JsonValue.jbool true) (by decide) rfl⟩

/-! ## Lemmas about `log_workout` (claims C3, C4, C10) -/

theorem sqlInsertSet_ok {st st2 : Store} {eid : Nat} {i : Int} {f : SetFields}
    {warm : Int} {sid : Nat}
    (h : sqlInsertSet st eid i f warm = .ok (st2, sid)) :
    st2 = { st with
      sets := st.sets ++ [⟨st.set_seq + 1, eid, i, f.reps, f.weight_kg,
        f.weight_lbs, f.distance_m, f.distance_yards, f.duration_s, f.side,
        f.rpe, f.rir, warm⟩]
      set_seq := st.set_seq + 1 } ∧ sid = st.set_seq + 1 := by
  unfold sqlInsertSet at h
  split at h
  · exact absurd h (by simp)
  split at h
  · exact absurd h (by simp)
  · rw [Except.ok.injEq] at h
    exact ⟨(Prod.mk.injEq _ _ _ _ ▸ h).1.symm, (Prod.mk.injEq _ _ _ _ ▸ h).2.symm⟩

theorem sqlInsertExercise_ok {st st2 : Store} {wid : Nat} {oi : Int}
    {nm : String} {cat nt : Option String} {eid : Nat}
    (h : sqlInsertExercise st wid oi nm cat nt = .ok (st2, eid)) :
    st2 = { st with
      exercises := st.exercises ++ [⟨st.exercise_seq + 1, wid, oi, nm, cat, nt⟩]
      exercise_seq := st.exercise_seq + 1 } ∧ eid = st.exercise_seq + 1 := by
  unfold sqlInsertExercise at h
  split at h
  · rw [Except.ok.injEq] at h
    exact ⟨(Prod.mk.injEq _ _ _ _ ▸ h).1.symm, (Prod.mk.injEq _ _ _ _ ▸ h).2.symm⟩
  · exact absurd h (by simp)

/-- The per-element plan of stored `set_index` values for the inner loop of
`log_workout` starting at position `idx`: the explicit payload value when
truthy, the 1-based position otherwise. -/
theorem insertSetsLoop_ok {ps : List SetPayload} :
    ∀ {st st' : Store} {eid : Nat} {idx : Nat},
      insertSetsLoop st eid idx ps = .ok st' →
      ∃ rows : List SetRow,
        st'.sets = st.sets ++ rows ∧
        rows.map (fun r => r.set_index) = setIndexPlan idx ps ∧
        rows.length = ps.length ∧
        st'.workouts = st.workouts ∧
        st'.exercises = st.exercises ∧
        st'.body_metrics = st.body_metrics ∧
        st'.skinfolds = st.skinfolds := by
  induction ps with
  | nil =>
    intro st st' eid idx h
    rw [insertSetsLoop, Except.ok.injEq] at h
    subst h
    exact ⟨[], by simp [setIndexPlan]⟩
  | cons p ps ih =>
    intro st st' eid idx h
    rw [insertSetsLoop] at h
    split at h
    · exact absurd h (by simp)
    · rename_i st2 sid heq
      obtain ⟨hst2, -⟩ := sqlInsertSet_ok heq
      obtain ⟨rows2, hsets, hplan, hlen, hw, he, hb, hs⟩ := ih h
      subst hst2
      refine ⟨⟨st.set_seq + 1, eid, pyOrInt p.set_index (idx : Int), p.fields.reps,
        p.fields.weight_kg, p.fields.weight_lbs, p.fields.distance_m,
        p.fields.distance_yards, p.fields.duration_s, p.fields.side,
        p.fields.rpe, p.fields.rir, if p.is_warmup then 1 else 0⟩ :: rows2,
        ?_, ?_, ?_, ?_, ?_, ?_, ?_⟩ <;> simp_all [setIndexPlan]

theorem insertExercisesLoop_ok {exs : List ExercisePayload} :
    ∀ {st st' : Store} {wid : Nat} {idx : Nat},
      insertExercisesLoop st wid idx exs = .ok st' →
      st'.workouts = st.workouts ∧
      st'.exercises.length = st.exercises.length + exs.length ∧
      st'.sets.length = st.sets.length + (exs.map (fun ex => ex.sets.length)).sum ∧
      st'.body_metrics = st.body_metrics ∧
      st'.skinfolds = st.skinfolds := by
  induction exs with
  | nil =>
    intro st st' wid idx h
    rw [insertExercisesLoop, Except.ok.injEq] at h
    subst h
    simp
  | cons ex exs ih =>
    intro st st' wid idx h
    rw [insertExercisesLoop] at h
    split at h
    · exact absurd h (by simp)
    split at h
    · exact absurd h (by simp)
    · rename_i st2 eid heq
      obtain ⟨hst2, -⟩ := sqlInsertExercise_ok heq
      split at h
      · exact absurd h (by simp)
      · rename_i st3 heq3
        obtain ⟨rows, hsets, -, hlen, hw3, he3, hb3, hs3⟩ := insertSetsLoop_ok heq3
        obtain ⟨hw, he, hs, hb, hsk⟩ := ih h
        subst hst2
        constructor
        · simp_all
        constructor
        · rw [he, he3]
          simp
          omega
        constructor
        · rw [hs, hsets]
          simp_all
          omega
        · constructor
          · simp_all
          · simp_all

/-- C3: `log_workout` is atomic.  On any raised error the durable store is
exactly the input store (the validation errors and constraint failures all
occur before `conn.commit()`, and the per-call connection discards its
uncommitted writes); on success the durable store has gained exactly one
workout row, one exercise row per payload, and one set row per set
payload. -/
theorem c3_log_workout_atomic (dt : String) (wt : Option String)
    (tg : Option (List String)) (nt : Option String)
    (exs : Option (List ExercisePayload)) (db : Store) :
    (∀ e, (log_workout dt wt tg nt exs db).outcome = .error e →
      (log_workout dt wt tg nt exs db).durable = db) ∧
    (∀ w, (log_workout dt wt tg nt exs db).outcome = .ok w →
      (log_workout dt wt tg nt exs db).durable.workouts.length
          = db.workouts.length + 1 ∧
      (log_workout dt wt tg nt exs db).durable.exercises.length
          = db.exercises.length + (exs.getD []).length ∧
      (log_workout dt wt tg nt exs db).durable.sets.length
          = db.sets.length + ((exs.getD []).map (fun ex => ex.sets.length)).sum) := by
  unfold log_workout
  cases hiso : ensure_iso_date dt with
  | error e => simp
  | ok d =>
    simp only
    cases hloop : insertExercisesLoop
        (sqlInsertWorkout db d wt (serialize_tags tg) nt).1
        (sqlInsertWorkout db d wt (serialize_tags tg) nt).2 1 (exs.getD []) with
    | error e => simp
    | ok st2 =>
      obtain ⟨hw, he, hs, -, -⟩ := insertExercisesLoop_ok hloop
      have hwid : (sqlInsertWorkout db d wt (serialize_tags tg) nt).2
          = db.workout_seq + 1 := rfl
      have hw1 : (sqlInsertWorkout db d wt (serialize_tags tg) nt).1.workouts
          = db.workouts ++ [⟨db.workout_seq + 1, d, wt, serialize_tags tg, nt⟩] := rfl
      cases hfind : st2.workouts.find?
          (fun w => w.id == (sqlInsertWorkout db d wt (serialize_tags tg) nt).2) with
      | none =>
        exfalso
        rw [List.find?_eq_none] at hfind
        refine hfind ⟨db.workout_seq + 1, d, wt, serialize_tags tg, nt⟩ ?_ (by simp [hwid])
        rw [hw, hw1]
        simp
      | some row =>
        simp only [hfind]
        refine ⟨?_, ?_⟩
        · intro e h
          exact absurd h (by simp)
        intro w hwm
        constructor
        · rw [hw, hw1]
          simp
        constructor
        · rw [he]
          rfl
        · rw [hs]
          rfl

/-- C4 (code bug): `log_workout` acquires a connection and then raises the
missing-exercise-name `ValueError` with no `try/finally` around the
connection: `conn.close()` is never reached on this error path, so the
connection leaks. -/
theorem c4_connection_leak_on_error_path :
    (log_workout "2026-01-06T18:30:00" none none none
      (some [{ sets := [] }]) emptyStore).opened = true ∧
    (log_workout "2026-01-06T18:30:00" none none none
      (some [{ sets := [] }]) emptyStore).closed = false ∧
    (log_workout "2026-01-06T18:30:00" none none none
      (some [{ sets := [] }]) emptyStore).outcome
      = .error (.valueError "Exercise at index 1 is missing required name field") := by
  refine ⟨rfl, rfl, rfl⟩

/-- C10: in `log_workout` a set payload whose explicit `set_index` is falsy
(`0` or absent) is numbered by its 1-based position instead, and only a
truthy explicit value overrides the position: the stored indices follow
`setIndexPlan`, `pyOrInt` maps `some 0` and `none` to the position, and a
concrete `log_workout` call with payload indices `0`, `7`, absent stores
`1`, `7`, `3`. -/
theorem c10_falsy_set_index_uses_position (st st' : Store) (eid : Nat)
    (idx : Nat) (ps : List SetPayload)
    (h : insertSetsLoop st eid idx ps = .ok st') :
    ((st'.sets.map (fun r => r.set_index)
        = st.sets.map (fun r => r.set_index) ++ setIndexPlan idx ps) ∧
      (∀ d : Int, pyOrInt (some 0) d = d ∧ pyOrInt none d = d) ∧
      (∀ x d : Int, x ≠ 0 → pyOrInt (some x) d = x)) ∧
    (log_workout "2026-01-06T18:30:00" none none none
        (some [{ name := some "A",
                 sets := [{ set_index := some 0 }, { set_index := some 7 }, {}] }])
        emptyStore).durable.sets.map (fun r => r.set_index) = [1, 7, 3] := by
  refine ⟨⟨?_, ?_, ?_⟩, rfl⟩
  · obtain ⟨rows, hsets, hplan, -⟩ := insertSetsLoop_ok h
    rw [hsets, List.map_append, hplan]
  · intro d
    exact ⟨by simp [pyOrInt], rfl⟩
  · intro x d hx
    simp [pyOrInt, hx]

/-- Witness for C10 at a concrete loop run: payload indices `some 0`,
`some 7`, absent starting at position 1 store `1`, `7`, `3`. -/
theorem c10_falsy_set_index_uses_position_witness :
    (insertSetsLoop c7db 1 1
        [{ set_index := some 0 }, { set_index := some 7 }, {}]).map
      (fun st => st.sets.map (fun r => r.set_index)) = .ok [1, 1, 7, 3] :=
  match hrun : insertSetsLoop c7db 1 1
      [{ set_index := some 0 }, { set_index := some 7 }, {}] with
  | .ok st' => by
    have h := (c10_falsy_set_index_uses_position c7db st' 1 1 _ hrun).1.1
    simp only [Except.map]
    rw [h]
    rfl
  | .error e => by
    exact absurd hrun (by simp [insertSetsLoop, sqlInsertSet, c7db, emptyStore, validSide])

/-- Witness for C3: at a concrete failing input (missing exercise name) the
durable store is unchanged; at a concrete successful input the three tables
grow by the expected row counts. -/
theorem c3_log_workout_atomic_witness :
    (log_workout "2026-01-06T18:30:00" none none none
      (some [{ sets := [] }]) emptyStore).durable = emptyStore ∧
    (log_workout "2026-01-06T18:30:00" none (some ["legs"]) none
      (some [{ name := some "Squat", sets := [{}, {}] }])
      emptyStore).durable.workouts.length = 0 + 1 :=
  ⟨(c3_log_workout_atomic "2026-01-06T18:30:00" none none none
      (some [{ sets := [] }]) emptyStore).1 _ rfl,
   ((c3_log_workout_atomic "2026-01-06T18:30:00" none (some ["legs"]) none
      (some [{ name := some "Squat", sets := [{}, {}] }]) emptyStore).2 _ rfl).1⟩

/-! ## Claim C1: `log_body_metrics` and the UNIQUE date constraint -/

theorem insertSkinfoldsLoop_ok {l : List (String × Int)} :
    ∀ {st : Store} {mid : Nat},
      st.body_metrics.any (fun r => r.id == mid) = true →
      ∃ st', insertSkinfoldsLoop st mid l = .ok st' ∧
        st'.skinfolds.length = st.skinfolds.length + l.length ∧
        st'.body_metrics = st.body_metrics := by
  induction l with
  | nil =>
    intro st mid hmem
    exact ⟨st, rfl, by simp, rfl⟩
  | cons sm l ih =>
    intro st mid hmem
    match sm with
    | (site, mm) =>
      have hins : sqlInsertSkinfold st mid site mm =
          .ok ({ st with
            skinfolds := st.skinfolds ++ [⟨st.skinfold_seq + 1, mid, site, mm⟩]
            skinfold_seq := st.skinfold_seq + 1 }, st.skinfold_seq + 1) := by
        unfold sqlInsertSkinfold
        rw [if_pos hmem]
      obtain ⟨st', hrun, hlen, hbm⟩ := @ih { st with
        skinfolds := st.skinfolds ++ [⟨st.skinfold_seq + 1, mid, site, mm⟩]
        skinfold_seq := st.skinfold_seq + 1 } mid (by simpa using hmem)
      refine ⟨st', ?_, ?_, ?_⟩
      · rw [insertSkinfoldsLoop, hins]
        exact hrun
      · rw [hlen]
        simp
        omega
      · simpa using hbm

/-- C1 (amended): when no `body_metrics` row for the normalized date exists,
`log_body_metrics` inserts one new row plus one skinfold row per provided
site, returns the new id and closes the connection; when a row for that
date already exists, the `UNIQUE` constraint on `body_metrics.date` makes
the insert fail with an `IntegrityError` and nothing is added — repeated
calls with the same date do not add rows. -/
theorem c1_log_body_metrics_amended (date : String) (bw : Option Int)
    (sf : Option (List (String × Int))) (nt : Option String) (db : Store)
    (d : String) (hd : ensure_date date = .ok d) :
    (db.body_metrics.any (fun r => r.date == d) = false →
      (log_body_metrics date bw sf nt db).outcome = .ok (db.body_seq + 1) ∧
      (log_body_metrics date bw sf nt db).durable.body_metrics
        = db.body_metrics ++ [⟨db.body_seq + 1, d, bw, nt⟩] ∧
      (log_body_metrics date bw sf nt db).durable.skinfolds.length
        = db.skinfolds.length + (sf.getD []).length ∧
      (log_body_metrics date bw sf nt db).closed = true) ∧
    (db.body_metrics.any (fun r => r.date == d) = true →
      (log_body_metrics date bw sf nt db).durable = db ∧
      (log_body_metrics date bw sf nt db).outcome
        = .error (.integrityError "UNIQUE constraint failed: body_metrics.date")) := by
  constructor
  · intro hfresh
    have hins : sqlInsertBodyMetrics db d bw nt =
        .ok ({ db with
          body_metrics := db.body_metrics ++ [⟨db.body_seq + 1, d, bw, nt⟩]
          body_seq := db.body_seq + 1 }, db.body_seq + 1) := by
      unfold sqlInsertBodyMetrics
      rw [if_neg (by simp [hfresh])]
    obtain ⟨st', hrun, hlen, hbm⟩ := @insertSkinfoldsLoop_ok
      (sf.getD []) { db with
        body_metrics := db.body_metrics ++ [⟨db.body_seq + 1, d, bw, nt⟩]
        body_seq := db.body_seq + 1 } (db.body_seq + 1) (by simp)
    unfold log_body_metrics
    rw [hd]
    simp only [hins, hrun]
    refine ⟨?_, ?_, ?_, ?_⟩ <;> simp_all
  · intro hdup
    have hins : sqlInsertBodyMetrics db d bw nt =
        .error (.integrityError "UNIQUE constraint failed: body_metrics.date") := by
      unfold sqlInsertBodyMetrics
      rw [if_pos hdup]
    unfold log_body_metrics
    rw [hd]
    simp only [hins]
    simp

/-- C1, counterexample.  With a `body_metrics` row for 2026-01-06 already
stored, a second `log_body_metrics` call for the same date does not add a
new row: it raises `IntegrityError` (UNIQUE constraint on `date`) and
leaves the store unchanged, contradicting the claim that the call succeeds
and adds a row for every date. -/
theorem c1_duplicate_date_counterexample :
    c1db.body_metrics.length = 1 ∧
    (log_body_metrics "2026-01-06" (some 81) none none c1db).outcome
      = .error (.integrityError "UNIQUE constraint failed: body_metrics.date") ∧
    (log_body_metrics "2026-01-06" (some 81) none none c1db).durable = c1db :=
  ⟨rfl, rfl, rfl⟩

/-- Witness for C1 (amended) on the empty store: the first call for a fresh
date returns id 1 and stores both provided skinfold sites. -/
theorem c1_log_body_metrics_amended_witness :
    (log_body_metrics "2026-01-06" (some 80)
      (some [("abdomen", 10), ("chest", 12)]) none emptyStore).outcome = .ok 1 ∧
    (log_body_metrics "2026-01-06" (some 80)
      (some [("abdomen", 10), ("chest", 12)]) none emptyStore).durable.skinfolds.length
      = 0 + 2 :=
  ⟨((c1_log_body_metrics_amended "2026-01-06" (some 80)
      (some [("abdomen", 10), ("chest", 12)]) none emptyStore "2026-01-06" rfl).1 rfl).1,
   ((c1_log_body_metrics_amended "2026-01-06" (some 80)
      (some [("abdomen", 10), ("chest", 12)]) none emptyStore "2026-01-06" rfl).1 rfl).2.2.1⟩

/-! ## Claim C6: cascade delete of a workout -/

theorem length_filter_not_add (p : α → Bool) (l : List α) :
    (l.filter (fun a => !(p a))).length + (l.filter p).length = l.length := by
  induction l with
  | nil => simp
  | cons x xs ih =>
    by_cases hx : p x = true <;> simp [List.filter_cons, hx] <;> omega

theorem filter_key_length_one {β : Type} [DecidableEq β] (f : α → β)
    {l : List α} (hnd : (l.map f).Nodup) {a : α} (ha : a ∈ l) :
    (l.filter (fun x => f x == f a)).length = 1 := by
  induction l with
  | nil => cases ha
  | cons x xs ih =>
    rw [List.map_cons, List.nodup_cons] at hnd
    obtain ⟨hx, hnd⟩ := hnd
    rcases List.mem_cons.mp ha with h | h
    · subst h
      have hnone : xs.filter (fun x => f x == f a) = [] := by
        rw [List.filter_eq_nil_iff]
        intro y hy hfy
        exact hx (by
          rw [List.mem_map]
          exact ⟨y, hy, by simpa using hfy.symm⟩)
      simp [List.filter_cons, hnone]
    · have hne : (f x == f a) = false := by
        by_contra hcon
        rw [Bool.not_eq_false, beq_iff_eq] at hcon
        exact hx (by
          rw [List.mem_map]
          exact ⟨a, h, hcon.symm⟩)
      simp [List.filter_cons, hne, ih hnd h]

/-- C6: deleting a workout row under the schema's `ON DELETE CASCADE`
foreign keys removes exactly one workout row (given the AUTOINCREMENT
invariant that workout ids are distinct and the row exists), all `K`
exercise rows of that workout, and all `M` set rows of those exercises,
i.e. `1 + K + M` rows in total; afterwards no exercise row references the
deleted workout and no set row references any of its exercises. -/
theorem c6_cascade_delete_counts (st : Store) (wid : Nat)
    (hnodup : (st.workouts.map (fun w => w.id)).Nodup)
    (hmem : ∃ w ∈ st.workouts, w.id = wid) :
    (delete_workout_row st wid).workouts.length + 1 = st.workouts.length ∧
    (delete_workout_row st wid).exercises.length
        + (st.exercises.filter (fun e => e.workout_id == wid)).length
      = st.exercises.length ∧
    (delete_workout_row st wid).sets.length
        + (st.sets.filter (fun s =>
            ((st.exercises.filter (fun e => e.workout_id == wid)).map
              (fun e => e.id)).contains s.exercise_id)).length
      = st.sets.length ∧
    (∀ e ∈ (delete_workout_row st wid).exercises, e.workout_id ≠ wid) ∧
    (∀ s ∈ (delete_workout_row st wid).sets,
      ¬ ((st.exercises.filter (fun e => e.workout_id == wid)).map
          (fun e => e.id)).contains s.exercise_id = true) := by
  obtain ⟨w0, hw0, hid⟩ := hmem
  refine ⟨?_, ?_, ?_, ?_, ?_⟩
  · have hone : (st.workouts.filter (fun w => w.id == wid)).length = 1 := by
      simpa [hid] using filter_key_length_one (fun w => w.id) hnodup hw0
    have hsplit := length_filter_not_add (fun w => w.id == wid) st.workouts
    show (st.workouts.filter (fun w => w.id != wid)).length + 1 = _
    have hbne : (st.workouts.filter (fun w => w.id != wid))
        = (st.workouts.filter (fun w => !(w.id == wid))) := by
      simp [bne]
    rw [hbne, ← hone]
    exact hsplit
  · exact (by
      have := length_filter_not_add (fun e => e.workout_id == wid) st.exercises
      show (st.exercises.filter (fun e => e.workout_id != wid)).length + _ = _
      have hbne : (st.exercises.filter (fun e => e.workout_id != wid))
          = (st.exercises.filter (fun e => !(e.workout_id == wid))) := by
        simp [bne]
      rw [hbne]
      exact this)
  · exact length_filter_not_add _ st.sets
  · intro e he
    have := (List.mem_filter.mp he).2
    simp [bne] at this
    exact this
  · intro s hs
    have := (List.mem_filter.mp hs).2
    simpa using this

/-- Witness for C6 on a concrete store: deleting workout 1 (which owns two
exercises with three sets) removes one workout row, two exercise rows and
three set rows, leaving workout 2's data intact. -/
theorem c6_cascade_delete_counts_witness :
    (delete_workout_row c6db 1).workouts.length + 1 = c6db.workouts.length ∧
    (delete_workout_row c6db 1).exercises.length
        + (c6db.exercises.filter (fun e => e.workout_id == 1)).length
      = c6db.exercises.length ∧
    (c6db.exercises.filter (fun e => e.workout_id == 1)).length = 2 ∧
    (c6db.sets.filter (fun s =>
        ((c6db.exercises.filter (fun e => e.workout_id == 1)).map
          (fun e => e.id)).contains s.exercise_id)).length = 3 := by
  have h := c6_cascade_delete_counts c6db 1 (by decide)
    ⟨⟨1, "2026-01-06T18:30:00", none, none, none⟩, by decide, rfl⟩
  exact ⟨h.1, h.2.1, by decide, by decide⟩

/-! ## Claim C7: `add_set` position assignment -/

theorem sqlMaxInt_append_singleton (l : List Int) (a : Int) :
    sqlMaxInt (l ++ [a]) = if l = [] then a else max (sqlMaxInt l) a := by
  cases l with
  | nil => simp [sqlMaxInt]
  | cons x xs => simp [sqlMaxInt, List.foldl_append]

theorem intRange1_succ (k : Nat) :
    intRange1 (k + 1) = intRange1 k ++ [(k : Int) + 1] := by
  simp [intRange1, List.range_succ]

theorem sqlMaxInt_intRange1 (k : Nat) : sqlMaxInt (intRange1 k) = k := by
  induction k with
  | zero => rfl
  | succ k ih =>
    rw [intRange1_succ, sqlMaxInt_append_singleton]
    by_cases hk : k = 0
    · subst hk
      simp [intRange1]
    · rw [if_neg (by simp [intRange1]; exact ⟨0, Nat.pos_of_ne_zero hk⟩), ih]
      have : (k : Int) ≤ (k : Int) + 1 := by omega
      rw [max_eq_right this]
      push_cast
      ring

theorem add_set_ok (db : Store) (eid : Nat) (f : SetFields) (w : Bool)
    (hex : db.exercises.any (fun e => e.id == eid) = true)
    (hside : validSide f.side = true) :
    (add_set eid f w db).outcome = .ok (db.set_seq + 1) ∧
    (add_set eid f w db).durable.sets = db.sets ++
      [⟨db.set_seq + 1, eid, maxSetIndex db eid + 1, f.reps, f.weight_kg,
        f.weight_lbs, f.distance_m, f.distance_yards, f.duration_s, f.side,
        f.rpe, f.rir, if w then 1 else 0⟩] ∧
    (add_set eid f w db).durable.exercises = db.exercises ∧
    (add_set eid f w db).closed = true := by
  unfold add_set sqlInsertSet
  rw [if_neg (by simp [hex]), if_neg (by simp [hside])]
  exact ⟨rfl, rfl, rfl, rfl⟩

theorem addSetN_invariant (eid : Nat) (N : Nat) :
    ∀ (db : Store) (k : Nat),
      db.exercises.any (fun e => e.id == eid) = true →
      (db.sets.filter (fun s => s.exercise_id == eid)).map (fun s => s.set_index)
        = intRange1 k →
      ((addSetN eid N db).sets.filter (fun s => s.exercise_id == eid)).map
        (fun s => s.set_index) = intRange1 (k + N) := by
  induction N with
  | zero =>
    intro db k hex hinv
    simpa [addSetN] using hinv
  | succ N ih =>
    intro db k hex hinv
    obtain ⟨-, hsets, hexs, -⟩ := add_set_ok db eid {} false hex rfl
    have hmax : maxSetIndex db eid = (k : Int) := by
      unfold maxSetIndex
      rw [hinv, sqlMaxInt_intRange1]
    have hstep : ((add_set eid {} false db).durable.sets.filter
        (fun s => s.exercise_id == eid)).map (fun s => s.set_index)
        = intRange1 (k + 1) := by
      rw [hsets, List.filter_append, List.map_append, hinv, intRange1_succ]
      simp [hmax]
    have hex2 : (add_set eid {} false db).durable.exercises.any
        (fun e => e.id == eid) = true := by rw [hexs]; exact hex
    have := ih (add_set eid {} false db).durable (k + 1) hex2 hstep
    rw [show addSetN eid (N + 1) db
        = addSetN eid N (add_set eid {} false db).durable from rfl, this]
    congr 1
    omega

/-- C7, counterexample.  The claim says indices are never reused after
deletion; but after deleting the set with the maximum index (index 1 here),
the next `add_set` computes `COALESCE(MAX(set_index), 0) + 1 = 1` and
stores index 1 again. -/
theorem c7_index_reuse_counterexample :
    c7db.sets.map (fun s => s.set_index) = [1] ∧
    (add_set 1 {} false (delete_set_row c7db 1)).outcome = .ok 2 ∧
    (add_set 1 {} false (delete_set_row c7db 1)).durable.sets.map
      (fun s => s.set_index) = [1] :=
  ⟨rfl, rfl, rfl⟩

/-- C7 (amended): starting from an exercise with no sets, `N` successive
`add_set` calls store `set_index` values exactly `1..N` in call order, and
every single `add_set` call appends one row whose index is the current
maximum plus one (`0 + 1` when no sets exist).  Deletion does not renumber
surviving rows, but deleting the highest-indexed set lets its index be
assigned again, so indices are not never-reused. -/
theorem c7_add_set_positions_amended (db : Store) (eid : Nat) (N : Nat)
    (hex : db.exercises.any (fun e => e.id == eid) = true)
    (hempty : db.sets.filter (fun s => s.exercise_id == eid) = []) :
    ((addSetN eid N db).sets.filter (fun s => s.exercise_id == eid)).map
      (fun s => s.set_index) = intRange1 N ∧
    (∀ (db' : Store) (f : SetFields) (w : Bool),
      db'.exercises.any (fun e => e.id == eid) = true →
      validSide f.side = true →
      ∃ row : SetRow, (add_set eid f w db').durable.sets = db'.sets ++ [row] ∧
        row.set_index = maxSetIndex db' eid + 1) := by
  constructor
  · have := addSetN_invariant eid N db 0 hex (by simp [hempty, intRange1])
    simpa using this
  · intro db' f w hex' hside'
    obtain ⟨-, hsets, -, -⟩ := add_set_ok db' eid f w hex' hside'
    exact ⟨_, hsets, rfl⟩

/-- Witness for C7 (amended): three successive `add_set` calls on a fresh
exercise store indices `[1, 2, 3]`. -/
theorem c7_add_set_positions_amended_witness :
    ((addSetN 1 3 c7fresh).sets.filter (fun s => s.exercise_id == 1)).map
      (fun s => s.set_index) = intRange1 3 ∧
    intRange1 3 = [1, 2, 3] :=
  ⟨(c7_add_set_positions_amended c7fresh 1 3 rfl rfl).1, by decide⟩

/-! ## Claim C8: `get_workouts` whole-day date bounds -/

theorem mem_insertSortedBy {lt : α → α → Bool} {x y : α} {l : List α}
    (h : y ∈ insertSortedBy lt x l) : y = x ∨ y ∈ l := by
  induction l with
  | nil => simpa [insertSortedBy] using h
  | cons z zs ih =>
    rw [insertSortedBy] at h
    split at h
    · rcases List.mem_cons.mp h with h | h
      · exact Or.inr (by simp [h])
      · rcases ih h with h | h
        · exact Or.inl h
        · exact Or.inr (by simp [h])
    · rcases List.mem_cons.mp h with h | h
      · exact Or.inl h
      · exact Or.inr h

theorem mem_sortStableBy {lt : α → α → Bool} {y : α} {l : List α}
    (h : y ∈ sortStableBy lt l) : y ∈ l := by
  induction l with
  | nil => rw [sortStableBy] at h; exact h
  | cons x xs ih =>
    rw [sortStableBy] at h
    rcases mem_insertSortedBy h with h | h
    · simp [h]
    · simp [ih h]

theorem mem_sqlLimitOffset {limit offset : Int} {y : α} {l : List α}
    (h : y ∈ sqlLimitOffset limit offset l) : y ∈ l := by
  unfold sqlLimitOffset at h
  split at h
  · exact List.mem_of_mem_drop h
  · exact List.mem_of_mem_drop (List.mem_of_mem_take h)

/-- C8: the `get_workouts` date bounds are inclusive whole-day ranges.  A
stored workout at `2026-01-06T23:59:59` passes the filter built from
`to_date = "2026-01-06"` (and so is in the filtered row set); no workout at
`2026-01-07T00:00:00` ever appears in the results of such a query; and a
workout passes the filter built from `from_date = "2026-01-06"` exactly
from `2026-01-06T00:00:00` onward, in particular at that first second. -/
theorem c8_get_workouts_day_bounds (db : Store) (w : WorkoutRow)
    (hw : w ∈ db.workouts) :
    (w.date_time = "2026-01-06T23:59:59" →
      workoutRowMatches none (some "2026-01-06") none none w = true ∧
      w ∈ db.workouts.filter (workoutRowMatches none (some "2026-01-06") none none)) ∧
    (∀ (limit offset : Int) (res : List HydratedWorkout),
      get_workouts none (some "2026-01-06") none none limit offset db = .ok res →
      ∀ hd ∈ res, hd.date_time ≠ "2026-01-07T00:00:00") ∧
    (w.date_time = "2026-01-06T00:00:00" →
      workoutRowMatches (some "2026-01-06") none none none w = true) ∧
    (sqlTextLe "2026-01-06T00:00:00" w.date_time = true →
      workoutRowMatches (some "2026-01-06") none none none w = true) := by
  refine ⟨?_, ?_, ?_, ?_⟩
  · intro hdt
    have hm : workoutRowMatches none (some "2026-01-06") none none w = true := by
      simp only [workoutRowMatches, hdt]
      decide
    exact ⟨hm, List.mem_filter.mpr ⟨hw, hm⟩⟩
  · intro limit offset res hres hd hmem
    have hbounds : resolveDateBounds none (some "2026-01-06")
        = .ok (none, some "2026-01-06") := rfl
    unfold get_workouts at hres
    rw [hbounds] at hres
    simp only [Except.ok.injEq] at hres
    subst hres
    obtain ⟨row, hrow, hhd⟩ := List.mem_map.mp hmem
    have hrow2 := mem_sortStableBy (mem_sqlLimitOffset hrow)
    have hmatch := (List.mem_filter.mp hrow2).2
    intro hcon
    have hdtrow : row.date_time = "2026-01-07T00:00:00" := by
      rw [← hhd] at hcon
      exact hcon
    have hfalse : sqlTextLe "2026-01-07T00:00:00" ("2026-01-06" ++ "T23:59:59")
        = false := rfl
    simp [workoutRowMatches, hdtrow, hfalse,
      show sqlTextLe "2026-01-07T00:00:00" "2026-01-06T23:59:59" = false from rfl]
      at hmatch
  · intro hdt
    simp only [workoutRowMatches, hdt]
    decide
  · intro hle
    simp only [workoutRowMatches]
    rw [show ("2026-01-06" : String) ++ "T00:00:00" = "2026-01-06T00:00:00" from rfl,
      hle]
    rfl

/-- Witness for C8 on a concrete store holding workouts at the last second
of 2026-01-06 and the first second of 2026-01-07. -/
theorem c8_get_workouts_day_bounds_witness :
    workoutRowMatches none (some "2026-01-06") none none
      ⟨1, "2026-01-06T23:59:59", none, none, none⟩ = true ∧
    (⟨1, "2026-01-06T23:59:59", none, JsonValue.jarr [], none, []⟩ :
      HydratedWorkout).date_time ≠ "2026-01-07T00:00:00" ∧
    workoutRowMatches (some "2026-01-06") none none none
      ⟨2, "2026-01-07T00:00:00", none, none, none⟩ = true :=
  ⟨((c8_get_workouts_day_bounds c8db ⟨1, "2026-01-06T23:59:59", none, none, none⟩
      (by decide)).1 rfl).1,
   (c8_get_workouts_day_bounds c8db ⟨1, "2026-01-06T23:59:59", none, none, none⟩
      (by decide)).2.1 20 0
      [⟨1, "2026-01-06T23:59:59", none, JsonValue.jarr [], none, []⟩] rfl
      _ (by simp),
   (c8_get_workouts_day_bounds c8db ⟨2, "2026-01-07T00:00:00", none, none, none⟩
      (by decide)).2.2.2 (by decide)⟩

/-! ## Claim C9: `search_logs` domain order and result budget -/

theorem countDomain_append (k : Nat) (l1 l2 : List SearchResult) :
    countDomain k (l1 ++ l2) = countDomain k l1 + countDomain k l2 := by
  simp [countDomain, List.filter_append]

theorem countDomain_eq_length {k : Nat} {l : List SearchResult}
    (h : ∀ r ∈ l, r.domainRank = k) : countDomain k l = l.length := by
  unfold countDomain
  rw [List.filter_eq_self.mpr]
  intro r hr
  simp [h r hr]

theorem countDomain_eq_zero {k k' : Nat} {l : List SearchResult}
    (h : ∀ r ∈ l, r.domainRank = k') (hne : k' ≠ k) : countDomain k l = 0 := by
  unfold countDomain
  rw [List.length_eq_zero, List.filter_eq_nil_iff]
  intro r hr
  simp [h r hr, hne]

theorem pairwise_rank_const {k : Nat} {l : List SearchResult}
    (h : ∀ r ∈ l, r.domainRank = k) :
    l.Pairwise (fun a b => a.domainRank ≤ b.domainRank) := by
  induction l with
  | nil => exact List.Pairwise.nil
  | cons x xs ih =>
    refine List.Pairwise.cons ?_ (ih (fun r hr => h r (by simp [hr])))
    intro b hb
    rw [h x (by simp), h b (by simp [hb])]

theorem sqlLimit_length_le {limit : Int} (hlim : 0 ≤ limit) (l : List α) :
    ((sqlLimit limit l).length : Int) ≤ limit := by
  unfold sqlLimit
  rw [if_neg (by omega)]
  have h1 : (l.take limit.toNat).length ≤ limit.toNat := by
    simp [List.length_take]
  omega

theorem searchWorkoutBlock_ok {q : String} {fd td : Option String}
    {limit : Int} {db : Store} {l : List SearchResult}
    (h : searchWorkoutBlock q fd td limit db = .ok l) :
    (∀ r ∈ l, r.domainRank = 0) ∧ (0 ≤ limit → (l.length : Int) ≤ limit) := by
  unfold searchWorkoutBlock at h
  split at h
  · exact absurd h (by simp)
  · rw [Except.ok.injEq] at h
    subst h
    constructor
    · intro r hr
      obtain ⟨w, -, hw⟩ := List.mem_map.mp hr
      rw [← hw]
      rfl
    · intro hlim
      rw [List.length_map]
      exact sqlLimit_length_le hlim _

theorem searchNutritionBlock_ok {q : String} {fd td : Option String}
    {limit : Int} {db : Store} {l : List SearchResult}
    (h : searchNutritionBlock q fd td limit db = .ok l) :
    (∀ r ∈ l, r.domainRank = 1) ∧ (0 ≤ limit → (l.length : Int) ≤ limit) := by
  unfold searchNutritionBlock at h
  split at h
  · exact absurd h (by simp)
  · rw [Except.ok.injEq] at h
    subst h
    constructor
    · intro r hr
      obtain ⟨w, -, hw⟩ := List.mem_map.mp hr
      rw [← hw]
      rfl
    · intro hlim
      rw [List.length_map]
      exact sqlLimit_length_le hlim _

theorem searchBodyBlock_ok {q : String} {fd td : Option String}
    {limit : Int} {db : Store} {l : List SearchResult}
    (h : searchBodyBlock q fd td limit db = .ok l) :
    (∀ r ∈ l, r.domainRank = 2) ∧ (0 ≤ limit → (l.length : Int) ≤ limit) := by
  unfold searchBodyBlock at h
  split at h
  · exact absurd h (by simp)
  · rw [Except.ok.injEq] at h
    subst h
    constructor
    · intro r hr
      obtain ⟨w, -, hw⟩ := List.mem_map.mp hr
      rw [← hw]
      rfl
    · intro hlim
      rw [List.length_map]
      exact sqlLimit_length_le hlim _

theorem stage_w_facts {domains : Option (List String)} {q : String}
    {fd td : Option String} {limit : Int} {db : Store} {w : List SearchResult}
    (hlim : 0 ≤ limit)
    (heq : (if (resolvedDomains domains).contains "workout" = true
        then searchWorkoutBlock q fd td limit db
        else .ok []) = .ok w) :
    (∀ r ∈ w, r.domainRank = 0) ∧ (w.length : Int) ≤ limit := by
  split at heq
  · obtain ⟨h1, h2⟩ := searchWorkoutBlock_ok heq
    exact ⟨h1, h2 hlim⟩
  · rw [Except.ok.injEq] at heq
    subst heq
    exact ⟨by simp, by simpa using hlim⟩

theorem stage_n_facts {domains : Option (List String)} {q : String}
    {fd td : Option String} {r : Int} {db : Store} {n : List SearchResult}
    (hr : 0 ≤ r)
    (heq : (if (resolvedDomains domains).contains "nutrition" = true
        then searchNutritionBlock q fd td r db
        else .ok []) = .ok n) :
    (∀ x ∈ n, x.domainRank = 1) ∧ (n.length : Int) ≤ r := by
  split at heq
  · obtain ⟨h1, h2⟩ := searchNutritionBlock_ok heq
    exact ⟨h1, h2 hr⟩
  · rw [Except.ok.injEq] at heq
    subst heq
    exact ⟨by simp, by simpa using hr⟩

theorem stage_b_facts {domains : Option (List String)} {q : String}
    {fd td : Option String} {r : Int} {db : Store} {b : List SearchResult}
    (hr : 0 ≤ r)
    (heq : (if (resolvedDomains domains).contains "body" = true
        then searchBodyBlock q fd td r db
        else .ok []) = .ok b) :
    (∀ x ∈ b, x.domainRank = 2) ∧ (b.length : Int) ≤ r := by
  split at heq
  · obtain ⟨h1, h2⟩ := searchBodyBlock_ok heq
    exact ⟨h1, h2 hr⟩
  · rw [Except.ok.injEq] at heq
    subst heq
    exact ⟨by simp, by simpa using hr⟩

theorem queried_sublist_one (a : Bool) :
    List.Sublist (if a = true then ["workout"] else ([] : List String))
      ["workout", "nutrition", "body"] := by
  cases a <;> decide

theorem queried_sublist_two (a b : Bool) :
    List.Sublist ((if a = true then ["workout"] else ([] : List String)) ++
        (if b = true then ["nutrition"] else []))
      ["workout", "nutrition", "body"] := by
  cases a <;> cases b <;> decide

theorem queried_sublist_three (a b c : Bool) :
    List.Sublist ((if a = true then ["workout"] else ([] : List String)) ++
        (if b = true then ["nutrition"] else []) ++
        (if c = true then ["body"] else []))
      ["workout", "nutrition", "body"] := by
  cases a <;> cases b <;> cases c <;> decide

theorem mem_ite_singleton {d s : String} {a : Bool}
    (h : d ∈ (if a = true then [s] else ([] : List String))) :
    d = s ∧ a = true := by
  cases a
  · simp at h
  · simp at h
    exact ⟨h, rfl⟩

/-- C9 (amended): for every nonnegative `limit`, a successful `search_logs`
call returns at most `limit` results; results appear in the fixed domain
order workout, nutrition, body; the ghost trace of issued domain queries is
an in-order sublist of `[workout, nutrition, body]` containing only
requested domains; the workout results alone, and the workout and
nutrition results together, never exceed the budget (each query is capped
at the remaining budget); the nutrition (resp. body) query is issued only
if the results gathered so far number strictly below `limit`, and it is
issued whenever its domain is requested and budget remains.  (For negative
`limit` the claim fails; see the counterexample.) -/
theorem c9_search_budget_amended (q : String) (domains : Option (List String))
    (fd td : Option String) (limit : Int) (db : Store) (out : SearchOut)
    (hlim : 0 ≤ limit)
    (hok : search_logs q domains fd td limit db = .ok out) :
    ((out.results.length : Int) ≤ limit) ∧
    out.results.Pairwise (fun a b => a.domainRank ≤ b.domainRank) ∧
    List.Sublist out.queried ["workout", "nutrition", "body"] ∧
    (∀ d ∈ out.queried, d ∈ resolvedDomains domains) ∧
    ((countDomain 0 out.results : Int) ≤ limit ∧
      (countDomain 0 out.results : Int) + (countDomain 1 out.results : Int) ≤ limit) ∧
    ("workout" ∈ resolvedDomains domains → "workout" ∈ out.queried) ∧
    ("nutrition" ∈ out.queried → (countDomain 0 out.results : Int) < limit) ∧
    ("nutrition" ∈ resolvedDomains domains →
      (countDomain 0 out.results : Int) < limit → "nutrition" ∈ out.queried) ∧
    ("body" ∈ out.queried →
      (countDomain 0 out.results : Int) + (countDomain 1 out.results : Int) < limit) ∧
    ("body" ∈ resolvedDomains domains →
      (countDomain 0 out.results : Int) + (countDomain 1 out.results : Int) < limit →
      "body" ∈ out.queried) := by
  simp only [search_logs] at hok
  split at hok
  · exact absurd hok (by simp)
  · rename_i w heq1
    obtain ⟨hw0, hwlen⟩ := stage_w_facts hlim heq1
    split at hok
    · rename_i cond1
      rw [Except.ok.injEq] at hok
      subst hok
      simp only [pySliceTo, if_pos hlim]
      have hall : ∀ r ∈ List.take limit.toNat w, r.domainRank = 0 :=
        fun r hr => hw0 r (List.mem_of_mem_take hr)
      have hcw : countDomain 0 (List.take limit.toNat w)
          = (List.take limit.toNat w).length := countDomain_eq_length hall
      have hcn : countDomain 1 (List.take limit.toNat w) = 0 :=
        countDomain_eq_zero hall (by decide)
      have hlen : (List.take limit.toNat w).length = min limit.toNat w.length :=
        List.length_take _ _
      refine ⟨?_, ?_, ?_, ?_, ⟨?_, ?_⟩, ?_, ?_, ?_, ?_, ?_⟩
      · omega
      · exact pairwise_rank_const hall
      · exact queried_sublist_one _
      · intro d hd
        obtain ⟨hdw, hflag⟩ := mem_ite_singleton hd
        subst hdw
        simpa using hflag
      · rw [hcw]
        omega
      · rw [hcw, hcn]
        omega
      · intro hmemdoms
        rw [if_pos (by simpa using hmemdoms)]
        simp
      · intro hd
        obtain ⟨hcon, -⟩ := mem_ite_singleton hd
        exact absurd hcon (by decide)
      · intro hnd hcount
        rw [hcw] at hcount
        omega
      · intro hd
        obtain ⟨hcon, -⟩ := mem_ite_singleton hd
        exact absurd hcon (by decide)
      · intro hbd hcount
        rw [hcw, hcn] at hcount
        omega
    · rename_i cond1
      split at hok
      · exact absurd hok (by simp)
      · rename_i n heq2
        obtain ⟨hn1, hnlen⟩ := stage_n_facts (by omega) heq2
        split at hok
        · rename_i cond2
          rw [Except.ok.injEq] at hok
          subst hok
          simp only [pySliceTo, if_pos hlim]
          have hwle : w.length ≤ limit.toNat := by omega
          have htake : List.take limit.toNat (w ++ n)
              = w ++ List.take (limit.toNat - w.length) n := by
            rw [List.take_append_eq_append_take, List.take_of_length_le hwle]
          rw [htake]
          have hallt : ∀ r ∈ List.take (limit.toNat - w.length) n, r.domainRank = 1 :=
            fun r hr => hn1 r (List.mem_of_mem_take hr)
          have htlen : (List.take (limit.toNat - w.length) n).length
              = min (limit.toNat - w.length) n.length := List.length_take _ _
          have hcw : countDomain 0 (w ++ List.take (limit.toNat - w.length) n)
              = w.length := by
            rw [countDomain_append, countDomain_eq_length hw0,
              countDomain_eq_zero hallt (by decide)]
            omega
          have hcn : countDomain 1 (w ++ List.take (limit.toNat - w.length) n)
              = (List.take (limit.toNat - w.length) n).length := by
            rw [countDomain_append, countDomain_eq_zero hw0 (by decide),
              countDomain_eq_length hallt]
            omega
          refine ⟨?_, ?_, ?_, ?_, ⟨?_, ?_⟩, ?_, ?_, ?_, ?_, ?_⟩
          · rw [List.length_append]
            omega
          · refine List.pairwise_append.mpr
              ⟨pairwise_rank_const hw0, pairwise_rank_const hallt, ?_⟩
            intro a ha b hb
            rw [hw0 a ha, hallt b hb]
            omega
          · exact queried_sublist_two _ _
          · intro d hd
            rcases List.mem_append.mp hd with hd | hd
            · obtain ⟨hdw, hflag⟩ := mem_ite_singleton hd
              subst hdw
              simpa using hflag
            · obtain ⟨hdw, hflag⟩ := mem_ite_singleton hd
              subst hdw
              simpa using hflag
          · rw [hcw]
            omega
          · rw [hcw, hcn]
            omega
          · intro hmemdoms
            refine List.mem_append.mpr (Or.inl ?_)
            rw [if_pos (by simpa using hmemdoms)]
            simp
          · intro hd
            rw [hcw]
            omega
          · intro hnd hcount
            refine List.mem_append.mpr (Or.inr ?_)
            rw [if_pos (by simpa using hnd)]
            simp
          · intro hd
            rcases List.mem_append.mp hd with hd | hd
            · obtain ⟨hcon, -⟩ := mem_ite_singleton hd
              exact absurd hcon (by decide)
            · obtain ⟨hcon, -⟩ := mem_ite_singleton hd
              exact absurd hcon (by decide)
          · intro hbd hcount
            rw [hcw, hcn] at hcount
            omega
        · rename_i cond2
          split at hok
          · exact absurd hok (by simp)
          · rename_i b heq3
            obtain ⟨hb2, hblen⟩ := stage_b_facts (by omega) heq3
            rw [Except.ok.injEq] at hok
            subst hok
            have hcw : countDomain 0 ((w ++ n) ++ b) = w.length := by
              rw [countDomain_append, countDomain_append,
                countDomain_eq_length hw0, countDomain_eq_zero hn1 (by decide),
                countDomain_eq_zero hb2 (by decide)]
              omega
            have hcn : countDomain 1 ((w ++ n) ++ b) = n.length := by
              rw [countDomain_append, countDomain_append,
                countDomain_eq_zero hw0 (by decide), countDomain_eq_length hn1,
                countDomain_eq_zero hb2 (by decide)]
              omega
            refine ⟨?_, ?_, ?_, ?_, ⟨?_, ?_⟩, ?_, ?_, ?_, ?_, ?_⟩
            · simp only [List.length_append]
              omega
            · refine List.pairwise_append.mpr
                ⟨List.pairwise_append.mpr
                  ⟨pairwise_rank_const hw0, pairwise_rank_const hn1, ?_⟩,
                 pairwise_rank_const hb2, ?_⟩
              · intro a ha b2 hb
                rw [hw0 a ha, hn1 b2 hb]
                omega
              · intro a ha b2 hb
                rcases List.mem_append.mp ha with ha | ha
                · rw [hw0 a ha, hb2 b2 hb]
                  omega
                · rw [hn1 a ha, hb2 b2 hb]
                  omega
            · exact queried_sublist_three _ _ _
            · intro d hd
              rcases List.mem_append.mp hd with hd | hd
              · rcases List.mem_append.mp hd with hd | hd
                · obtain ⟨hdw, hflag⟩ := mem_ite_singleton hd
                  subst hdw
                  simpa using hflag
                · obtain ⟨hdw, hflag⟩ := mem_ite_singleton hd
                  subst hdw
                  simpa using hflag
              · obtain ⟨hdw, hflag⟩ := mem_ite_singleton hd
                subst hdw
                simpa using hflag
            · rw [hcw]
              omega
            · rw [hcw, hcn]
              omega
            · intro hmemdoms
              refine List.mem_append.mpr (Or.inl (List.mem_append.mpr (Or.inl ?_)))
              rw [if_pos (by simpa using hmemdoms)]
              simp
            · intro hd
              rw [hcw]
              omega
            · intro hnd hcount
              refine List.mem_append.mpr (Or.inl (List.mem_append.mpr (Or.inr ?_)))
              rw [if_pos (by simpa using hnd)]
              simp
            · intro hd
              rw [hcw, hcn]
              omega
            · intro hbd hcount
              refine List.mem_append.mpr (Or.inr ?_)
              rw [if_pos (by simpa using hbd)]
              simp

/-- C9, counterexample.  With `limit = -1` (a representable `int` input) and
two matching workouts, SQLite's `LIMIT -1` returns both rows, the check
`len(results) >= limit` holds trivially, and the early return slices
`results[:-1]`, so the call returns one result — more than `limit`.  The
claim's bound "the total number of returned results never exceeds limit"
fails. -/
theorem c9_negative_limit_counterexample :
    (search_logs "pizza" none none none (-1) c9negdb).map
      (fun o => (o.results.length : Int)) = .ok 1 ∧
    ¬ ((1 : Int) ≤ -1) := by
  refine ⟨rfl, by decide⟩

/-- Witness for C9 (amended) at the spec's scenario: 7 matching
nutrition-day notes with `limit = 5` return exactly 5 results, each tagged
"nutrition", with only the nutrition domain queried. -/
theorem c9_search_budget_amended_witness :
    search_logs "pizza" (some ["nutrition"]) none none 5 c9db = .ok c9out ∧
    ((c9out.results.length : Int) ≤ 5) ∧
    c9out.results.length = 5 ∧
    c9out.results.all (fun r => r.domainTag == "nutrition") = true ∧
    c9out.queried = ["nutrition"] :=
  ⟨rfl,
   (c9_search_budget_amended "pizza" (some ["nutrition"]) none none 5 c9db c9out
     (by decide) rfl).1,
   rfl, rfl, rfl⟩

end MCPLogger
